import Mathlib

/-!
Shallow embedding of the Dragon stream cipher reference implementation
(`src/ref/dragon-opt.c`) together with proofs about its specified behaviour.

Modelling conventions:
* C `u32` arithmetic is `Nat` with explicit reduction modulo `2 ^ 32` (`m32`)
  wherever the C operation can overflow (`+`, `++`, `-=`); `^` is `Nat` xor,
  which cannot overflow on operands below `2 ^ 32`.
* Byte buffers (`const u8 *`) are functions from byte index to byte value.
* The NLFSR array `nlfsr_word[DRAGON_NLFSR_SIZE]` is a function `Fin 32 → Nat`;
  a store is `Function.update`.
* The six substitution tables from `dragon-sboxes.c` (not part of `src/`; the
  spec treats them as opaque u32-valued constants) are parameters, bundled in
  the structure `Sbox`; each application is reduced mod `2 ^ 32` because the C
  functions return `u32`.
-/

set_option maxRecDepth 100000

def two32 : Nat := 4294967296

/-- Reduction modulo `2 ^ 32`, the semantics of C `u32` arithmetic. -/
def m32 (x : Nat) : Nat := x % two32

/-- The `U8TO32_LITTLE` macro of the ECRYPT framework: read four consecutive
bytes as a little-endian 32-bit word.  The `% 256` reflects the `u8` element
type of the buffer. -/
def U8TO32_LITTLE (p : Nat → Nat) (j : Nat) : Nat :=
  (p j % 256) ||| ((p (j + 1) % 256) <<< 8) |||
    ((p (j + 2) % 256) <<< 16) ||| ((p (j + 3) % 256) <<< 24)

/-- The six nonlinear substitution functions `G1,G2,G3,H1,H2,H3` defined in
`dragon-sboxes.c` (an external constant file, out of the spec's scope).  The
development is parameterised by them. -/
structure Sbox where
  G1 : Nat → Nat
  G2 : Nat → Nat
  G3 : Nat → Nat
  H1 : Nat → Nat
  H2 : Nat → Nat
  H3 : Nat → Nat

def DRAGON_NLFSR_SIZE : Nat := 32

/-- Modelled from the spec: `DRAGON_BUFFER_SIZE` is defined in the header
`ecrypt-sync.h`, which is not under `src/`.  Spec section 4.4 says the
byte-stream adapter's staging buffer holds exactly 16 blocks (128 bytes) and is
refilled by "calling the Round Function for exactly 16 blocks"; the constant is
passed as the block count of the refill call, so its value is 16. -/
def DRAGON_BUFFER_SIZE : Nat := 16

/-- Number of mixing stages run by `ECRYPT_ivsetup`. -/
def DRAGON_MIXING_STAGES : Nat := 16

/-- The `ECRYPT_ctx` structure (declared in the missing header; its fields are
exactly those the code of `dragon-opt.c` uses).  `keystream_buffer` holds the
staging bytes of the byte-stream adapter. -/
structure ECRYPT_ctx where
  nlfsr_word : Fin 32 → Nat
  nlfsr_offset : Nat
  init_state : Fin 32 → Nat
  state_counter0 : Nat
  state_counter1 : Nat
  key_size : Nat
  full_rekeying : Nat
  buffer_index : Nat
  keystream_buffer : List Nat

/-- The `DRAGON_OFFSET` macro: `(nlfsr_offset + ith_element) & (DRAGON_NLFSR_SIZE - 1)`. -/
def DRAGON_OFFSET (off i : Nat) : Nat := (off + i) &&& 31

theorem DRAGON_OFFSET_lt (off i : Nat) : DRAGON_OFFSET off i < 32 :=
  Nat.lt_succ_of_le Nat.and_le_right

/-- Physical index addressed by the `DRAGON_NLFSR_WORD` macro for logical word `i`. -/
def dragonIdx (off i : Nat) : Fin 32 := ⟨DRAGON_OFFSET off i, DRAGON_OFFSET_lt off i⟩

/-- A store into the NLFSR array. -/
def wupd (w : Fin 32 → Nat) (i : Fin 32) (v : Nat) : Fin 32 → Nat := Function.update w i v

/-- The 128-bit branch of `ECRYPT_keysetup`: the key words (`k0..k3`) are copied
into fixed slots; slots 8..11 and 24..27 are not written. -/
def keysetupWords128 (key : Nat → Nat) (w : Fin 32 → Nat) : Fin 32 → Nat :=
  let k0 := U8TO32_LITTLE key 0
  let k1 := U8TO32_LITTLE key 4
  let k2 := U8TO32_LITTLE key 8
  let k3 := U8TO32_LITTLE key 12
  let w1 : Fin 32 → Nat := wupd w 0 k0
  let w2 : Fin 32 → Nat := wupd w1 12 k0
  let w3 : Fin 32 → Nat := wupd w2 20 k0
  let w4 : Fin 32 → Nat := wupd w3 1 k1
  let w5 : Fin 32 → Nat := wupd w4 13 k1
  let w6 : Fin 32 → Nat := wupd w5 21 k1
  let w7 : Fin 32 → Nat := wupd w6 2 k2
  let w8 : Fin 32 → Nat := wupd w7 14 k2
  let w9 : Fin 32 → Nat := wupd w8 22 k2
  let w10 : Fin 32 → Nat := wupd w9 3 k3
  let w11 : Fin 32 → Nat := wupd w10 15 k3
  let w12 : Fin 32 → Nat := wupd w11 23 k3
  let w13 : Fin 32 → Nat := wupd w12 4 k2
  let w14 : Fin 32 → Nat := wupd w13 16 k2
  let w15 : Fin 32 → Nat := wupd w14 28 k2
  let w16 : Fin 32 → Nat := wupd w15 6 k0
  let w17 : Fin 32 → Nat := wupd w16 18 k0
  let w18 : Fin 32 → Nat := wupd w17 30 k0
  let w19 : Fin 32 → Nat := wupd w18 5 k3
  let w20 : Fin 32 → Nat := wupd w19 17 k3
  let w21 : Fin 32 → Nat := wupd w20 29 k3
  let w22 : Fin 32 → Nat := wupd w21 7 k1
  let w23 : Fin 32 → Nat := wupd w22 19 k1
  let w24 : Fin 32 → Nat := wupd w23 31 k1
  w24

/-- The 256-bit branch of `ECRYPT_keysetup` (taken for every `keysize ≠ 128`):
key words `k0..k7` are copied verbatim into slots `idx`, `8+idx`, `16+idx`;
slots 24..31 are not written. -/
def keysetupWords256 (key : Nat → Nat) (w : Fin 32 → Nat) : Fin 32 → Nat :=
  let k0 := U8TO32_LITTLE key 0
  let k1 := U8TO32_LITTLE key 4
  let k2 := U8TO32_LITTLE key 8
  let k3 := U8TO32_LITTLE key 12
  let k4 := U8TO32_LITTLE key 16
  let k5 := U8TO32_LITTLE key 20
  let k6 := U8TO32_LITTLE key 24
  let k7 := U8TO32_LITTLE key 28
  let w1 : Fin 32 → Nat := wupd w 0 k0
  let w2 : Fin 32 → Nat := wupd w1 8 k0
  let w3 : Fin 32 → Nat := wupd w2 16 k0
  let w4 : Fin 32 → Nat := wupd w3 1 k1
  let w5 : Fin 32 → Nat := wupd w4 9 k1
  let w6 : Fin 32 → Nat := wupd w5 17 k1
  let w7 : Fin 32 → Nat := wupd w6 2 k2
  let w8 : Fin 32 → Nat := wupd w7 10 k2
  let w9 : Fin 32 → Nat := wupd w8 18 k2
  let w10 : Fin 32 → Nat := wupd w9 3 k3
  let w11 : Fin 32 → Nat := wupd w10 11 k3
  let w12 : Fin 32 → Nat := wupd w11 19 k3
  let w13 : Fin 32 → Nat := wupd w12 4 k4
  let w14 : Fin 32 → Nat := wupd w13 12 k4
  let w15 : Fin 32 → Nat := wupd w14 20 k4
  let w16 : Fin 32 → Nat := wupd w15 5 k5
  let w17 : Fin 32 → Nat := wupd w16 13 k5
  let w18 : Fin 32 → Nat := wupd w17 21 k5
  let w19 : Fin 32 → Nat := wupd w18 6 k6
  let w20 : Fin 32 → Nat := wupd w19 14 k6
  let w21 : Fin 32 → Nat := wupd w20 22 k6
  let w22 : Fin 32 → Nat := wupd w21 7 k7
  let w23 : Fin 32 → Nat := wupd w22 15 k7
  let w24 : Fin 32 → Nat := wupd w23 23 k7
  w24

/-- `ECRYPT_keysetup` from `dragon-opt.c`.  The `ivsize` parameter is ignored by
the code; there is no validation of `keysize` (any value other than 128 takes
the 256-bit branch).  The snapshot `init_state` is a full copy of the
just-written NLFSR. -/
def ECRYPT_keysetup (ctx : ECRYPT_ctx) (key : Nat → Nat) (keysize ivsize : Nat) :
    ECRYPT_ctx :=
  let w := if keysize = 128 then keysetupWords128 key ctx.nlfsr_word
           else keysetupWords256 key ctx.nlfsr_word
  { ctx with
    nlfsr_word := w
    nlfsr_offset := 0
    key_size := keysize
    full_rekeying := 1
    buffer_index := 0
    init_state := w }

/-- The 128-bit branch of the IV merge phase of `ECRYPT_ivsetup`: the IV words
(`i0..i3`) are xored into or written over fixed slots.  Slots {0,1,2,3,16..19,
30,31} keep their key contents; the slots key setup left unwritten (8..11 and
24..27) are all overwritten directly. -/
def ivMergeWords128 (iv : Nat → Nat) (w : Fin 32 → Nat) : Fin 32 → Nat :=
  let i0 := U8TO32_LITTLE iv 0
  let i1 := U8TO32_LITTLE iv 4
  let i2 := U8TO32_LITTLE iv 8
  let i3 := U8TO32_LITTLE iv 12
  let w1 : Fin 32 → Nat := wupd w 8 i0
  let w2 : Fin 32 → Nat := wupd w1 20 (w1 20 ^^^ i0)
  let w3 : Fin 32 → Nat := wupd w2 28 (w2 28 ^^^ i0)
  let w4 : Fin 32 → Nat := wupd w3 9 i1
  let w5 : Fin 32 → Nat := wupd w4 21 (w4 21 ^^^ i1)
  let w6 : Fin 32 → Nat := wupd w5 29 (w5 29 ^^^ i1)
  let w7 : Fin 32 → Nat := wupd w6 10 i2
  let w8 : Fin 32 → Nat := wupd w7 22 (w7 22 ^^^ i2)
  let w9 : Fin 32 → Nat := wupd w8 30 (w8 30 ^^^ i2)
  let w10 : Fin 32 → Nat := wupd w9 11 i3
  let w11 : Fin 32 → Nat := wupd w10 23 (w10 23 ^^^ i3)
  let w12 : Fin 32 → Nat := wupd w11 31 (w11 31 ^^^ i3)
  let w13 : Fin 32 → Nat := wupd w12 4 (w12 4 ^^^ i2)
  let w14 : Fin 32 → Nat := wupd w13 12 (w13 12 ^^^ i2)
  let w15 : Fin 32 → Nat := wupd w14 24 i2
  let w16 : Fin 32 → Nat := wupd w15 6 (w15 6 ^^^ i0)
  let w17 : Fin 32 → Nat := wupd w16 14 (w16 14 ^^^ i0)
  let w18 : Fin 32 → Nat := wupd w17 26 i0
  let w19 : Fin 32 → Nat := wupd w18 5 (w18 5 ^^^ i3)
  let w20 : Fin 32 → Nat := wupd w19 13 (w19 13 ^^^ i3)
  let w21 : Fin 32 → Nat := wupd w20 25 i3
  let w22 : Fin 32 → Nat := wupd w21 7 (w21 7 ^^^ i1)
  let w23 : Fin 32 → Nat := wupd w22 15 (w22 15 ^^^ i1)
  let w24 : Fin 32 → Nat := wupd w23 27 i1
  w24

/-- The 256-bit branch of the IV merge phase: for each `idx < 8` the IV word is
xored into slot `8+idx`, its bitwise complement (xor `0xFFFFFFFF`) into slot
`16+idx`, and the word overwrites slot `24+idx`. -/
def ivMergeWords256 (iv : Nat → Nat) (w : Fin 32 → Nat) : Fin 32 → Nat :=
  let i0 := U8TO32_LITTLE iv 0
  let i1 := U8TO32_LITTLE iv 4
  let i2 := U8TO32_LITTLE iv 8
  let i3 := U8TO32_LITTLE iv 12
  let i4 := U8TO32_LITTLE iv 16
  let i5 := U8TO32_LITTLE iv 20
  let i6 := U8TO32_LITTLE iv 24
  let i7 := U8TO32_LITTLE iv 28
  let w1 : Fin 32 → Nat := wupd w 8 (w 8 ^^^ i0)
  let w2 : Fin 32 → Nat := wupd w1 16 (w1 16 ^^^ (i0 ^^^ 0xFFFFFFFF))
  let w3 : Fin 32 → Nat := wupd w2 24 i0
  let w4 : Fin 32 → Nat := wupd w3 9 (w3 9 ^^^ i1)
  let w5 : Fin 32 → Nat := wupd w4 17 (w4 17 ^^^ (i1 ^^^ 0xFFFFFFFF))
  let w6 : Fin 32 → Nat := wupd w5 25 i1
  let w7 : Fin 32 → Nat := wupd w6 10 (w6 10 ^^^ i2)
  let w8 : Fin 32 → Nat := wupd w7 18 (w7 18 ^^^ (i2 ^^^ 0xFFFFFFFF))
  let w9 : Fin 32 → Nat := wupd w8 26 i2
  let w10 : Fin 32 → Nat := wupd w9 11 (w9 11 ^^^ i3)
  let w11 : Fin 32 → Nat := wupd w10 19 (w10 19 ^^^ (i3 ^^^ 0xFFFFFFFF))
  let w12 : Fin 32 → Nat := wupd w11 27 i3
  let w13 : Fin 32 → Nat := wupd w12 12 (w12 12 ^^^ i4)
  let w14 : Fin 32 → Nat := wupd w13 20 (w13 20 ^^^ (i4 ^^^ 0xFFFFFFFF))
  let w15 : Fin 32 → Nat := wupd w14 28 i4
  let w16 : Fin 32 → Nat := wupd w15 13 (w15 13 ^^^ i5)
  let w17 : Fin 32 → Nat := wupd w16 21 (w16 21 ^^^ (i5 ^^^ 0xFFFFFFFF))
  let w18 : Fin 32 → Nat := wupd w17 29 i5
  let w19 : Fin 32 → Nat := wupd w18 14 (w18 14 ^^^ i6)
  let w20 : Fin 32 → Nat := wupd w19 22 (w19 22 ^^^ (i6 ^^^ 0xFFFFFFFF))
  let w21 : Fin 32 → Nat := wupd w20 30 i6
  let w22 : Fin 32 → Nat := wupd w21 15 (w21 15 ^^^ i7)
  let w23 : Fin 32 → Nat := wupd w22 23 (w22 23 ^^^ (i7 ^^^ 0xFFFFFFFF))
  let w24 : Fin 32 → Nat := wupd w23 31 i7
  w24

/-- The `DRAGON_UPDATE` macro: the six-register nonlinear mixing network used by
the IV-setup mixing stages. -/
def DRAGON_UPDATE (S : Sbox) (a0 b0 c0 d0 e0 f0 : Nat) :
    Nat × Nat × Nat × Nat × Nat × Nat :=
  let b1 := b0 ^^^ a0
  let d1 := d0 ^^^ c0
  let f1 := f0 ^^^ e0
  let c1 := m32 (c0 + b1)
  let e1 := m32 (e0 + d1)
  let a1 := m32 (a0 + f1)
  let f2 := f1 ^^^ m32 (S.G2 c1)
  let b2 := b1 ^^^ m32 (S.G3 e1)
  let d2 := d1 ^^^ m32 (S.G1 a1)
  let e2 := e1 ^^^ m32 (S.H3 f2)
  let a2 := a1 ^^^ m32 (S.H1 b2)
  let c2 := c1 ^^^ m32 (S.H2 d2)
  let b3 := m32 (b2 + e2)
  let d3 := m32 (d2 + a2)
  let f3 := m32 (f2 + c2)
  let c3 := c2 ^^^ b3
  let e3 := e2 ^^^ d3
  let a3 := a2 ^^^ f3
  (a3, b3, c3, d3, e3, f3)

/-- State threaded through the IV-setup mixing loop: the NLFSR array, the
`nlfsr_offset` field, and the running accumulators `e`, `f`. -/
structure MixSt where
  w : Fin 32 → Nat
  off : Nat
  e : Nat
  f : Nat

/-- One iteration of the mixing loop of `ECRYPT_ivsetup`: read logical words
{0,24,28}, {1,25,29}, {2,26,30}, {3,27,31} (xored together), run
`DRAGON_UPDATE`, advance `nlfsr_offset` by `DRAGON_NLFSR_SIZE - 4 = 28`
(mod `2^32`), then write the four updated words xored with logical words 20..23
back to logical positions 0..3 (all logical indexing relative to the advanced
offset). -/
def mixStage (S : Sbox) (st : MixSt) : MixSt :=
  let a := st.w (dragonIdx st.off 0) ^^^ st.w (dragonIdx st.off 24) ^^^
    st.w (dragonIdx st.off 28)
  let b := st.w (dragonIdx st.off 1) ^^^ st.w (dragonIdx st.off 25) ^^^
    st.w (dragonIdx st.off 29)
  let c := st.w (dragonIdx st.off 2) ^^^ st.w (dragonIdx st.off 26) ^^^
    st.w (dragonIdx st.off 30)
  let d := st.w (dragonIdx st.off 3) ^^^ st.w (dragonIdx st.off 27) ^^^
    st.w (dragonIdx st.off 31)
  let r := DRAGON_UPDATE S a b c d st.e st.f
  let off : Nat := m32 (st.off + 28)
  let u1 : Fin 32 → Nat := wupd st.w (dragonIdx off 0) (r.1 ^^^ st.w (dragonIdx off 20))
  let u2 : Fin 32 → Nat := wupd u1 (dragonIdx off 1) (r.2.1 ^^^ u1 (dragonIdx off 21))
  let u3 : Fin 32 → Nat := wupd u2 (dragonIdx off 2) (r.2.2.1 ^^^ u2 (dragonIdx off 22))
  let u4 : Fin 32 → Nat := wupd u3 (dragonIdx off 3) (r.2.2.2.1 ^^^ u3 (dragonIdx off 23))
  { w := u4
    off := off
    e := r.2.2.2.2.1
    f := r.2.2.2.2.2 }

/-- `n` iterations of the mixing loop. -/
def mixStages (S : Sbox) : Nat → MixSt → MixSt
  | 0, st => st
  | n + 1, st => mixStages S n (mixStage S st)

/-- `ECRYPT_ivsetup` from `dragon-opt.c`: if this is not the first IV for the
current key (`full_rekeying == 0`), restore the NLFSR from the post-keysetup
snapshot `init_state`; merge the IV into the NLFSR according to the key-size
mode; run `DRAGON_MIXING_STAGES = 16` mixing stages with accumulators seeded
with the constants `0x00004472`, `0x61676F6E`; store the accumulators as the
stream counters and clear `full_rekeying`. -/
def ECRYPT_ivsetup (S : Sbox) (ctx : ECRYPT_ctx) (iv : Nat → Nat) : ECRYPT_ctx :=
  let w0 := if ctx.full_rekeying = 0 then ctx.init_state else ctx.nlfsr_word
  let w1 := if ctx.key_size = 128 then ivMergeWords128 iv w0 else ivMergeWords256 iv w0
  let st := mixStages S DRAGON_MIXING_STAGES
    { w := w1
      off := ctx.nlfsr_offset
      e := 0x00004472
      f := 0x61676F6E }
  { ctx with
    nlfsr_word := st.w
    nlfsr_offset := st.off
    state_counter0 := st.e
    state_counter1 := st.f
    full_rekeying := 0 }

/-- The six physical NLFSR positions of one keystream micro-round (the literal
arguments of one `RND(...)` line of `DRAGON_16RND`). -/
structure RndLocs where
  la : Fin 32
  lb : Fin 32
  lc : Fin 32
  ld : Fin 32
  le : Fin 32
  lfb : Fin 32

/-- Result of one micro-round: updated NLFSR, updated low counter `c2`, and the
two keystream words `z1 = a ^ (f + c)`, `z2 = e ^ (d + a)` that `KEYSTREAM_RND`
emits (and `PROCESS_RND` xors into the input words). -/
structure RndOut where
  w : Fin 32 → Nat
  c2 : Nat
  z1 : Nat
  z2 : Nat

/-- The `BASIC_RND` macro: one micro-round of the round function, reading six
NLFSR words by direct physical index, folding in the counter pair (`c1` fixed,
`c2` used at its pre-increment value, then incremented), and writing the two
feedback words at `lfb`, `lfb+1`. -/
def BASIC_RND (S : Sbox) (w : Fin 32 → Nat) (c1 c2 : Nat) (L : RndLocs) : RndOut :=
  let a0 := w L.la
  let c0 := w L.lc
  let e0 := w L.le ^^^ c1
  let b0 := w L.lb ^^^ a0
  let d0 := w L.ld ^^^ c0
  let f0 := (w (L.le + 1) ^^^ e0) ^^^ c2
  let c2n := m32 (c2 + 1)
  let c1' := m32 (c0 + b0)
  let e1 := m32 (e0 + d0)
  let a1 := m32 (a0 + f0)
  let f1 := f0 ^^^ m32 (S.G2 c1')
  let b1 := b0 ^^^ m32 (S.G3 e1)
  let d1 := d0 ^^^ m32 (S.G1 a1)
  let e2 := e1 ^^^ m32 (S.H3 f1)
  let a2 := a1 ^^^ m32 (S.H1 b1)
  let c2' := c1' ^^^ m32 (S.H2 d1)
  let u1 : Fin 32 → Nat := wupd w L.lfb (m32 (b1 + e2))
  let u2 : Fin 32 → Nat := wupd u1 (L.lfb + 1) (c2' ^^^ m32 (b1 + e2))
  { w := u2
    c2 := c2n
    z1 := a2 ^^^ m32 (f1 + c2')
    z2 := e2 ^^^ m32 (d1 + a2) }

/-- The sixteen location tuples of the `DRAGON_16RND` macro, in execution
order. -/
def roundTable : List RndLocs :=
  [⟨0, 9, 16, 19, 30, 30⟩,
   ⟨30, 7, 14, 17, 28, 28⟩,
   ⟨28, 5, 12, 15, 26, 26⟩,
   ⟨26, 3, 10, 13, 24, 24⟩,
   ⟨24, 1, 8, 11, 22, 22⟩,
   ⟨22, 31, 6, 9, 20, 20⟩,
   ⟨20, 29, 4, 7, 18, 18⟩,
   ⟨18, 27, 2, 5, 16, 16⟩,
   ⟨16, 25, 0, 3, 14, 14⟩,
   ⟨14, 23, 30, 1, 12, 12⟩,
   ⟨12, 21, 28, 31, 10, 10⟩,
   ⟨10, 19, 26, 29, 8, 8⟩,
   ⟨8, 17, 24, 27, 6, 6⟩,
   ⟨6, 15, 22, 25, 4, 4⟩,
   ⟨4, 13, 20, 23, 2, 2⟩,
   ⟨2, 11, 18, 21, 0, 0⟩]

/-- A run of `KEYSTREAM_RND` micro-rounds over a list of location tuples,
returning the final NLFSR, the final low counter, and the emitted keystream
words in order. -/
def ksRounds (S : Sbox) : List RndLocs → (Fin 32 → Nat) → Nat → Nat →
    ((Fin 32 → Nat) × Nat × List Nat)
  | [], w, _, c2 => (w, c2, [])
  | L :: rest, w, c1, c2 =>
    let r := BASIC_RND S w c1 c2 L
    let t := ksRounds S rest r.w c1 r.c2
    (t.1, t.2.1, r.z1 :: r.z2 :: t.2.2)

/-- A run of `PROCESS_RND` micro-rounds: like `ksRounds` but each round consumes
two input words (the `in` pointer) and emits their xor with the keystream
words.  Returns (NLFSR, low counter, remaining input, output words). -/
def processRounds (S : Sbox) : List RndLocs → (Fin 32 → Nat) → Nat → Nat →
    List Nat → ((Fin 32 → Nat) × Nat × List Nat × List Nat)
  | [], w, _, c2, ins => (w, c2, ins, [])
  | L :: rest, w, c1, c2, ins =>
    let r := BASIC_RND S w c1 c2 L
    let x := ins.headD 0
    let ins1 := ins.tail
    let y := ins1.headD 0
    let ins2 := ins1.tail
    let t := processRounds S rest r.w c1 r.c2 ins2
    (t.1, t.2.1, t.2.2.1, (x ^^^ r.z1) :: (y ^^^ r.z2) :: t.2.2.2)

/-- The while loop of `ECRYPT_keystream_blocks`, step-indexed by `fuel`: while
the `blocks` variable is nonzero, run one `DRAGON_16RND` and decrement `blocks`
by 16 in `u32` arithmetic.  Returns (NLFSR, low counter, remaining `blocks`
variable, keystream words).  The C loop terminates exactly when 16 divides
`blocks` (theorem `ksLoopVar_never_zero` below shows the guard never turns
false otherwise), in which case it performs `blocks / 16` iterations. -/
def ksLoopFuel (S : Sbox) : Nat → (Fin 32 → Nat) → Nat → Nat → Nat →
    ((Fin 32 → Nat) × Nat × Nat × List Nat)
  | 0, w, _, c2, blocks => (w, c2, blocks, [])
  | fuel + 1, w, c1, c2, blocks =>
    if 0 < blocks then
      let r := ksRounds S roundTable w c1 c2
      let t := ksLoopFuel S fuel r.1 c1 r.2.1 (m32 (blocks + (two32 - 16)))
      (t.1, t.2.1, t.2.2.1, r.2.2 ++ t.2.2.2)
    else (w, c2, blocks, [])

/-- `ECRYPT_keystream_blocks` from `dragon-opt.c`: run the while loop (to
completion, i.e. `blocks / 16` iterations, assuming the caller respects the
granularity contract 16 ∣ blocks), then fold the counter pair back into the
context: the high word is incremented exactly once if the final low word is
below the stored pre-call low word, and the low word is stored as-is. -/
def ECRYPT_keystream_blocks (S : Sbox) (ctx : ECRYPT_ctx) (blocks : Nat) :
    ECRYPT_ctx × List Nat :=
  let c1 := ctx.state_counter0
  let r := ksLoopFuel S (blocks / 16) ctx.nlfsr_word c1 ctx.state_counter1 blocks
  let c2 := r.2.1
  let ctx' := { ctx with
    nlfsr_word := r.1
    state_counter0 := if c2 < ctx.state_counter1 then m32 (c1 + 1) else ctx.state_counter0
    state_counter1 := c2 }
  (ctx', r.2.2.2)

/-- The while loop of `ECRYPT_process_blocks`, step-indexed like `ksLoopFuel`.
Returns (NLFSR, low counter, remaining `blocks` variable, remaining input,
output words). -/
def procLoopFuel (S : Sbox) : Nat → (Fin 32 → Nat) → Nat → Nat → Nat →
    List Nat → ((Fin 32 → Nat) × Nat × Nat × List Nat × List Nat)
  | 0, w, _, c2, blocks, ins => (w, c2, blocks, ins, [])
  | fuel + 1, w, c1, c2, blocks, ins =>
    if 0 < blocks then
      let r := processRounds S roundTable w c1 c2 ins
      let t := procLoopFuel S fuel r.1 c1 r.2.1 (m32 (blocks + (two32 - 16))) r.2.2.1
      (t.1, t.2.1, t.2.2.1, t.2.2.2.1, r.2.2.2 ++ t.2.2.2.2)
    else (w, c2, blocks, ins, [])

/-- `ECRYPT_process_blocks` from `dragon-opt.c`.  The `action` parameter
(0 = encrypt, 1 = decrypt) "has no meaning for Dragon" (its own comment) and is
never read.  Input and output are word streams (the C code casts the byte
buffers to `u32*`). -/
def ECRYPT_process_blocks (S : Sbox) (action : Nat) (ctx : ECRYPT_ctx)
    (ins : List Nat) (blocks : Nat) : ECRYPT_ctx × List Nat :=
  let c1 := ctx.state_counter0
  let r := procLoopFuel S (blocks / 16) ctx.nlfsr_word c1 ctx.state_counter1 blocks ins
  let c2 := r.2.1
  let ctx' := { ctx with
    nlfsr_word := r.1
    state_counter0 := if c2 < ctx.state_counter1 then m32 (c1 + 1) else ctx.state_counter0
    state_counter1 := c2 }
  (ctx', r.2.2.2.2)

/-- Little-endian byte decomposition of a `u32` word stream: the C code writes
keystream words through a `u32*` cast into a byte buffer, and spec section 6
fixes little-endian byte order for all multi-byte words. -/
def bytesOfWords (ws : List Nat) : List Nat :=
  ws.flatMap (fun w => [w % 256, w / 256 % 256, w / 65536 % 256, w / 16777216 % 256])

/-- The staging-buffer refill step of `ECRYPT_keystream_bytes`: one call of
`ECRYPT_keystream_blocks` with block count `DRAGON_BUFFER_SIZE`, whose output
bytes land in `keystream_buffer`. -/
def dragonRefill (S : Sbox) (ctx : ECRYPT_ctx) : ECRYPT_ctx :=
  let r := ECRYPT_keystream_blocks S ctx DRAGON_BUFFER_SIZE
  { r.1 with keystream_buffer := bytesOfWords r.2 }

/-- `ECRYPT_keystream_bytes` from `dragon-opt.c`: for each requested byte, if
the cursor `buffer_index` is 0 refill the staging buffer, emit the byte at the
cursor, then set the cursor to `buffer_index % DRAGON_BUFFER_SIZE` — the
literal cursor-advance line of the source, which adds nothing before reducing. -/
def ECRYPT_keystream_bytes (S : Sbox) (ctx : ECRYPT_ctx) : Nat → ECRYPT_ctx × List Nat
  | 0 => (ctx, [])
  | n + 1 =>
    let c1 := if ctx.buffer_index = 0 then dragonRefill S ctx else ctx
    let b := c1.keystream_buffer.getD c1.buffer_index 0
    let c2 := { c1 with buffer_index := c1.buffer_index % DRAGON_BUFFER_SIZE }
    let t := ECRYPT_keystream_bytes S c2 n
    (t.1, b :: t.2)

/-- `ECRYPT_process_bytes` from `dragon-opt.c`: generate `msglen` keystream
bytes into the output, then xor the input over it.  `action` is never read. -/
def ECRYPT_process_bytes (S : Sbox) (action : Nat) (ctx : ECRYPT_ctx)
    (ins : List Nat) (msglen : Nat) : ECRYPT_ctx × List Nat :=
  let r := ECRYPT_keystream_bytes S ctx msglen
  (r.1, (List.range msglen).map (fun i => r.2.getD i 0 ^^^ ins.getD i 0))

/-- Trivial substitution tables (all zero), used for concrete witnesses: the
claims under verification are structural and hold for every `Sbox`. -/
def S0 : Sbox :=
  ⟨fun _ => 0, fun _ => 0, fun _ => 0, fun _ => 0, fun _ => 0, fun _ => 0⟩

/-- An all-zero byte buffer. -/
def zbuf : Nat → Nat := fun _ => 0

/-- A concrete context with distinct NLFSR contents, for witnesses. -/
def ctx0 : ECRYPT_ctx where
  nlfsr_word := fun i => (i : Nat) + 1
  nlfsr_offset := 0
  init_state := fun _ => 0
  state_counter0 := 0
  state_counter1 := 0
  key_size := 128
  full_rekeying := 1
  buffer_index := 0
  keystream_buffer := []

/-- A concrete context whose NLFSR slots all hold 5, for counterexamples about
slots that key setup leaves unwritten. -/
def ctx5 : ECRYPT_ctx where
  nlfsr_word := fun _ => 5
  nlfsr_offset := 0
  init_state := fun _ => 0
  state_counter0 := 0
  state_counter1 := 0
  key_size := 128
  full_rekeying := 1
  buffer_index := 0
  keystream_buffer := []

/-! ## Arithmetic and indexing helpers -/

theorem and31_eq_mod (n : Nat) : n &&& 31 = n % 32 := by
  have h := Nat.and_pow_two_sub_one_eq_mod n 5
  norm_num at h
  exact h

theorem m32_mod32 (x : Nat) : m32 x % 32 = x % 32 := by
  unfold m32 two32
  exact Nat.mod_mod_of_dvd x (by norm_num)

theorem dragonIdx_congr (o1 o2 i : Nat) (h : o1 % 32 = o2 % 32) :
    dragonIdx o1 i = dragonIdx o2 i := by
  apply Fin.ext
  show DRAGON_OFFSET o1 i = DRAGON_OFFSET o2 i
  unfold DRAGON_OFFSET
  rw [and31_eq_mod, and31_eq_mod, Nat.add_mod, h, ← Nat.add_mod]

theorem dragonIdx_aligned (off i : Nat) (h : off % 32 = 0) (hi : i < 32) :
    (dragonIdx off i : Nat) = i := by
  show DRAGON_OFFSET off i = i
  unfold DRAGON_OFFSET
  rw [and31_eq_mod]
  omega

theorem wupd_apply (w : Fin 32 → Nat) (i : Fin 32) (v : Nat) (j : Fin 32) :
    wupd w i v j = if j = i then v else w j := by
  simp [wupd, Function.update]

/-! ## Claim C2 — key-size validation in `ECRYPT_keysetup`

The code performs no validation at all: `keysize == 128` selects the 128-bit
layout and every other value falls into the `else` branch, i.e. is laid out as
if it were a 256-bit key; the state is fully initialized in all cases.  The
code's own comment says selecting a supported size is the user's
responsibility. -/

/-- Claim C2 counterexample: a key setup call with the unsupported size 192 is
not rejected; it initializes the cipher state exactly as a 256-bit call would
(same NLFSR, same snapshot, rekey flag set). -/
theorem keysetup_size192_initializes :
    (ECRYPT_keysetup ctx0 zbuf 192 192).nlfsr_word
        = (ECRYPT_keysetup ctx0 zbuf 256 256).nlfsr_word ∧
      (ECRYPT_keysetup ctx0 zbuf 192 192).init_state
        = (ECRYPT_keysetup ctx0 zbuf 256 256).init_state ∧
      (ECRYPT_keysetup ctx0 zbuf 192 192).full_rekeying = 1 :=
  ⟨rfl, rfl, rfl⟩

/-- Claim C2 (amended): `ECRYPT_keysetup` performs no key-size validation and
has no error path; any `keysize ≠ 128` (supported or not) selects the 256-bit
layout and the state is fully initialized. -/
theorem keysetup_no_size_validation (ctx : ECRYPT_ctx) (key : Nat → Nat)
    (keysize ivsize : Nat) (h : keysize ≠ 128) :
    ECRYPT_keysetup ctx key keysize ivsize =
      { ctx with
        nlfsr_word := keysetupWords256 key ctx.nlfsr_word
        nlfsr_offset := 0
        key_size := keysize
        full_rekeying := 1
        buffer_index := 0
        init_state := keysetupWords256 key ctx.nlfsr_word } := by
  simp [ECRYPT_keysetup, h]

/-- Witness for `keysetup_no_size_validation` at the concrete size 192. -/
theorem keysetup_no_size_validation_witness :
    ECRYPT_keysetup ctx0 zbuf 192 192 =
      { ctx0 with
        nlfsr_word := keysetupWords256 zbuf ctx0.nlfsr_word
        nlfsr_offset := 0
        key_size := 192
        full_rekeying := 1
        buffer_index := 0
        init_state := keysetupWords256 zbuf ctx0.nlfsr_word } :=
  keysetup_no_size_validation ctx0 zbuf 192 192 (by decide)

/-! ## Claim C8 — the slots 128-bit key setup does not write

The 128-bit branch writes slots {0..7, 12..23, 28..31} and leaves slots
8..11 and 24..27 untouched.  They are not set to zero: they keep whatever the
context held before the call (the code comment says initialization of these
locations is "deliberately omitted", not zeroed), and the snapshot records
those prior contents. -/

/-- Claim C8 counterexample: starting from a context whose NLFSR slots all hold
5, a 128-bit key setup with the all-zero key leaves slot 8 (an IV slot) at 5,
not 0 — and the snapshot records 5 as well. -/
theorem keysetup128_iv_slot_not_zero :
    (ECRYPT_keysetup ctx5 zbuf 128 128).nlfsr_word 8 ≠ 0 ∧
      (ECRYPT_keysetup ctx5 zbuf 128 128).init_state 8 ≠ 0 := by
  constructor <;> decide

/-- Claim C8 (amended): after a 128-bit key setup, every NLFSR slot reserved
for IV material (logical words 8..11 and 24..27) still holds the value the
context held there before the call (the branch never writes them), and the key
snapshot records those same prior values. -/
theorem keysetup128_iv_slots_untouched (ctx : ECRYPT_ctx) (key : Nat → Nat)
    (ivsize : Nat) :
    ((ECRYPT_keysetup ctx key 128 ivsize).nlfsr_word 8 = ctx.nlfsr_word 8 ∧
      (ECRYPT_keysetup ctx key 128 ivsize).nlfsr_word 9 = ctx.nlfsr_word 9 ∧
      (ECRYPT_keysetup ctx key 128 ivsize).nlfsr_word 10 = ctx.nlfsr_word 10 ∧
      (ECRYPT_keysetup ctx key 128 ivsize).nlfsr_word 11 = ctx.nlfsr_word 11 ∧
      (ECRYPT_keysetup ctx key 128 ivsize).nlfsr_word 24 = ctx.nlfsr_word 24 ∧
      (ECRYPT_keysetup ctx key 128 ivsize).nlfsr_word 25 = ctx.nlfsr_word 25 ∧
      (ECRYPT_keysetup ctx key 128 ivsize).nlfsr_word 26 = ctx.nlfsr_word 26 ∧
      (ECRYPT_keysetup ctx key 128 ivsize).nlfsr_word 27 = ctx.nlfsr_word 27) ∧
    ((ECRYPT_keysetup ctx key 128 ivsize).init_state 8 = ctx.nlfsr_word 8 ∧
      (ECRYPT_keysetup ctx key 128 ivsize).init_state 9 = ctx.nlfsr_word 9 ∧
      (ECRYPT_keysetup ctx key 128 ivsize).init_state 10 = ctx.nlfsr_word 10 ∧
      (ECRYPT_keysetup ctx key 128 ivsize).init_state 11 = ctx.nlfsr_word 11 ∧
      (ECRYPT_keysetup ctx key 128 ivsize).init_state 24 = ctx.nlfsr_word 24 ∧
      (ECRYPT_keysetup ctx key 128 ivsize).init_state 25 = ctx.nlfsr_word 25 ∧
      (ECRYPT_keysetup ctx key 128 ivsize).init_state 26 = ctx.nlfsr_word 26 ∧
      (ECRYPT_keysetup ctx key 128 ivsize).init_state 27 = ctx.nlfsr_word 27) := by
  simp +decide [ECRYPT_keysetup, keysetupWords128, wupd_apply]

/-! ## Claim C3 — behaviour on a block count that is not a multiple of 16

Neither `ECRYPT_keystream_blocks` nor `ECRYPT_process_blocks` checks the block
count (their asserts cover only the pointers).  The loop decrements the `u32`
variable `blocks` by 16 per iteration; if 16 does not divide the initial value
the variable is never 0 (its residue mod 16 is invariant), so the guard never
turns false: the call keeps producing keystream instead of aborting. -/

/-- One execution of the loop decrement `blocks -= 16` in `u32` arithmetic. -/
def ksLoopStep (b : Nat) : Nat := m32 (b + (two32 - 16))

/-- Value of the `blocks` loop variable after `k` iterations. -/
def ksLoopVar (blocks : Nat) : Nat → Nat
  | 0 => blocks
  | k + 1 => ksLoopStep (ksLoopVar blocks k)

theorem ksLoopStep_mod16 (b : Nat) : ksLoopStep b % 16 = b % 16 := by
  unfold ksLoopStep m32 two32
  omega

theorem ksLoopVar_mod16 (blocks k : Nat) : ksLoopVar blocks k % 16 = blocks % 16 := by
  induction k with
  | zero => rfl
  | succ k ih => rw [ksLoopVar, ksLoopStep_mod16, ih]

theorem ksLoopVar_ne_zero (blocks k : Nat) (h : blocks % 16 ≠ 0) :
    ksLoopVar blocks k ≠ 0 := by
  intro h0
  apply h
  rw [← ksLoopVar_mod16 blocks k, h0]

theorem ksLoopVar_shift (b k : Nat) :
    ksLoopVar (ksLoopStep b) k = ksLoopVar b (k + 1) := by
  induction k with
  | zero => simp only [ksLoopVar]
  | succ k ih => simp only [ksLoopVar]; rw [ih, ksLoopVar]

/-- Unfolding equation for `ksRounds` on a nonempty location list. -/
theorem ksRounds_cons (S : Sbox) (L : RndLocs) (rest : List RndLocs)
    (w : Fin 32 → Nat) (c1 c2 : Nat) :
    ksRounds S (L :: rest) w c1 c2 =
      ((ksRounds S rest (BASIC_RND S w c1 c2 L).w c1 (BASIC_RND S w c1 c2 L).c2).1,
       (ksRounds S rest (BASIC_RND S w c1 c2 L).w c1 (BASIC_RND S w c1 c2 L).c2).2.1,
       (BASIC_RND S w c1 c2 L).z1 :: (BASIC_RND S w c1 c2 L).z2 ::
         (ksRounds S rest (BASIC_RND S w c1 c2 L).w c1 (BASIC_RND S w c1 c2 L).c2).2.2) :=
  rfl

/-- Unfolding equation for `processRounds` on a nonempty location list. -/
theorem processRounds_cons (S : Sbox) (L : RndLocs) (rest : List RndLocs)
    (w : Fin 32 → Nat) (c1 c2 : Nat) (ins : List Nat) :
    processRounds S (L :: rest) w c1 c2 ins =
      ((processRounds S rest (BASIC_RND S w c1 c2 L).w c1 (BASIC_RND S w c1 c2 L).c2
          ins.tail.tail).1,
       (processRounds S rest (BASIC_RND S w c1 c2 L).w c1 (BASIC_RND S w c1 c2 L).c2
          ins.tail.tail).2.1,
       (processRounds S rest (BASIC_RND S w c1 c2 L).w c1 (BASIC_RND S w c1 c2 L).c2
          ins.tail.tail).2.2.1,
       (ins.headD 0 ^^^ (BASIC_RND S w c1 c2 L).z1) ::
         (ins.tail.headD 0 ^^^ (BASIC_RND S w c1 c2 L).z2) ::
         (processRounds S rest (BASIC_RND S w c1 c2 L).w c1 (BASIC_RND S w c1 c2 L).c2
            ins.tail.tail).2.2.2) :=
  rfl

theorem ksRounds_length (S : Sbox) (locs : List RndLocs) (w : Fin 32 → Nat)
    (c1 c2 : Nat) : (ksRounds S locs w c1 c2).2.2.length = 2 * locs.length := by
  induction locs generalizing w c2 with
  | nil => rfl
  | cons L rest ih =>
    rw [ksRounds_cons]
    simp only [List.length_cons, ih]
    ring

theorem processRounds_length (S : Sbox) (locs : List RndLocs) (w : Fin 32 → Nat)
    (c1 c2 : Nat) (ins : List Nat) :
    (processRounds S locs w c1 c2 ins).2.2.2.length = 2 * locs.length := by
  induction locs generalizing w c2 ins with
  | nil => rfl
  | cons L rest ih =>
    rw [processRounds_cons]
    simp only [List.length_cons, ih]
    ring

/-- Unfolding equation for `ksLoopFuel` when the guard is true. -/
theorem ksLoopFuel_succ_pos (S : Sbox) (fuel : Nat) (w : Fin 32 → Nat)
    (c1 c2 blocks : Nat) (h : 0 < blocks) :
    ksLoopFuel S (fuel + 1) w c1 c2 blocks =
      ((ksLoopFuel S fuel (ksRounds S roundTable w c1 c2).1 c1
          (ksRounds S roundTable w c1 c2).2.1 (ksLoopStep blocks)).1,
       (ksLoopFuel S fuel (ksRounds S roundTable w c1 c2).1 c1
          (ksRounds S roundTable w c1 c2).2.1 (ksLoopStep blocks)).2.1,
       (ksLoopFuel S fuel (ksRounds S roundTable w c1 c2).1 c1
          (ksRounds S roundTable w c1 c2).2.1 (ksLoopStep blocks)).2.2.1,
       (ksRounds S roundTable w c1 c2).2.2 ++
         (ksLoopFuel S fuel (ksRounds S roundTable w c1 c2).1 c1
            (ksRounds S roundTable w c1 c2).2.1 (ksLoopStep blocks)).2.2.2) := by
  rw [ksLoopFuel, if_pos h]
  rfl

theorem ksLoopFuel_stuck (S : Sbox) (fuel : Nat) (w : Fin 32 → Nat)
    (c1 c2 blocks : Nat) (h : blocks % 16 ≠ 0) :
    (ksLoopFuel S fuel w c1 c2 blocks).2.2.1 = ksLoopVar blocks fuel ∧
      (ksLoopFuel S fuel w c1 c2 blocks).2.2.2.length = 32 * fuel := by
  induction fuel generalizing w c2 blocks with
  | zero => exact ⟨rfl, rfl⟩
  | succ fuel ih =>
    have hpos : 0 < blocks := by omega
    have hstep : ksLoopStep blocks % 16 ≠ 0 := by
      rw [ksLoopStep_mod16]; exact h
    rw [ksLoopFuel_succ_pos S fuel w c1 c2 blocks hpos]
    refine ⟨?_, ?_⟩
    · show (ksLoopFuel S fuel _ c1 _ (ksLoopStep blocks)).2.2.1 = _
      rw [(ih _ _ _ hstep).1, ksLoopVar_shift]
    · rw [List.length_append, ksRounds_length, (ih _ _ _ hstep).2]
      simp [roundTable]
      ring

/-- Unfolding equation for `procLoopFuel` when the guard is true. -/
theorem procLoopFuel_succ_pos (S : Sbox) (fuel : Nat) (w : Fin 32 → Nat)
    (c1 c2 blocks : Nat) (ins : List Nat) (h : 0 < blocks) :
    procLoopFuel S (fuel + 1) w c1 c2 blocks ins =
      ((procLoopFuel S fuel (processRounds S roundTable w c1 c2 ins).1 c1
          (processRounds S roundTable w c1 c2 ins).2.1 (ksLoopStep blocks)
          (processRounds S roundTable w c1 c2 ins).2.2.1).1,
       (procLoopFuel S fuel (processRounds S roundTable w c1 c2 ins).1 c1
          (processRounds S roundTable w c1 c2 ins).2.1 (ksLoopStep blocks)
          (processRounds S roundTable w c1 c2 ins).2.2.1).2.1,
       (procLoopFuel S fuel (processRounds S roundTable w c1 c2 ins).1 c1
          (processRounds S roundTable w c1 c2 ins).2.1 (ksLoopStep blocks)
          (processRounds S roundTable w c1 c2 ins).2.2.1).2.2.1,
       (procLoopFuel S fuel (processRounds S roundTable w c1 c2 ins).1 c1
          (processRounds S roundTable w c1 c2 ins).2.1 (ksLoopStep blocks)
          (processRounds S roundTable w c1 c2 ins).2.2.1).2.2.2.1,
       (processRounds S roundTable w c1 c2 ins).2.2.2 ++
         (procLoopFuel S fuel (processRounds S roundTable w c1 c2 ins).1 c1
            (processRounds S roundTable w c1 c2 ins).2.1 (ksLoopStep blocks)
            (processRounds S roundTable w c1 c2 ins).2.2.1).2.2.2.2) := by
  rw [procLoopFuel, if_pos h]
  rfl

theorem procLoopFuel_stuck (S : Sbox) (fuel : Nat) (w : Fin 32 → Nat)
    (c1 c2 blocks : Nat) (ins : List Nat) (h : blocks % 16 ≠ 0) :
    (procLoopFuel S fuel w c1 c2 blocks ins).2.2.1 = ksLoopVar blocks fuel ∧
      (procLoopFuel S fuel w c1 c2 blocks ins).2.2.2.2.length = 32 * fuel := by
  induction fuel generalizing w c2 blocks ins with
  | zero => exact ⟨rfl, rfl⟩
  | succ fuel ih =>
    have hpos : 0 < blocks := by omega
    have hstep : ksLoopStep blocks % 16 ≠ 0 := by
      rw [ksLoopStep_mod16]; exact h
    rw [procLoopFuel_succ_pos S fuel w c1 c2 blocks ins hpos]
    refine ⟨?_, ?_⟩
    · show (procLoopFuel S fuel _ c1 _ (ksLoopStep blocks) _).2.2.1 = _
      rw [(ih _ _ _ _ hstep).1, ksLoopVar_shift]
    · rw [List.length_append, processRounds_length, (ih _ _ _ _ hstep).2]
      simp [roundTable]
      ring

/-- Claim C3 counterexample: requesting 8 blocks (not a multiple of 16) is not
stopped by any assert; the loop guard stays true forever (the `u32` loop
variable is never 0) and already after one iteration the call has produced 16
blocks (32 words) of keystream output. -/
theorem keystream_blocks_count8_not_stopped :
    (∀ k, ksLoopVar 8 k ≠ 0) ∧
      (ksLoopFuel S0 1 ctx5.nlfsr_word 0 0 8).2.2.2.length = 32 :=
  ⟨fun k => ksLoopVar_ne_zero 8 k (by decide), by decide⟩

/-- Claim C3 (amended): `ECRYPT_keystream_blocks` and `ECRYPT_process_blocks`
assert only that their pointers are non-null; a block count that is not a
multiple of 16 is not detected.  The loop decrements the `u32` count by 16 per
iteration, so its value (whose residue mod 16 is invariant) never reaches 0:
the guard never turns false — the call silently emits 16 blocks of keystream
per iteration and never terminates, instead of aborting. -/
theorem blocks_not_multiple_of_16_loops_forever (S : Sbox) (w : Fin 32 → Nat)
    (c1 c2 blocks : Nat) (ins : List Nat) (h : ¬ (16 ∣ blocks)) :
    (∀ k, ksLoopVar blocks k ≠ 0) ∧
      (∀ fuel, (ksLoopFuel S fuel w c1 c2 blocks).2.2.1 = ksLoopVar blocks fuel ∧
        (ksLoopFuel S fuel w c1 c2 blocks).2.2.2.length = 32 * fuel) ∧
      (∀ fuel, (procLoopFuel S fuel w c1 c2 blocks ins).2.2.1 = ksLoopVar blocks fuel ∧
        (procLoopFuel S fuel w c1 c2 blocks ins).2.2.2.2.length = 32 * fuel) := by
  have hm : blocks % 16 ≠ 0 := fun h0 => h (Nat.dvd_of_mod_eq_zero h0)
  exact ⟨fun k => ksLoopVar_ne_zero blocks k hm,
    fun fuel => ksLoopFuel_stuck S fuel w c1 c2 blocks hm,
    fun fuel => procLoopFuel_stuck S fuel w c1 c2 blocks ins hm⟩

/-- Witness for `blocks_not_multiple_of_16_loops_forever` at block count 24. -/
theorem blocks_not_multiple_of_16_loops_forever_witness :
    ¬ (16 ∣ (24 : Nat)) ∧
      ((∀ k, ksLoopVar 24 k ≠ 0) ∧
        (∀ fuel, (ksLoopFuel S0 fuel ctx0.nlfsr_word 0 0 24).2.2.1 = ksLoopVar 24 fuel ∧
          (ksLoopFuel S0 fuel ctx0.nlfsr_word 0 0 24).2.2.2.length = 32 * fuel) ∧
        (∀ fuel, (procLoopFuel S0 fuel ctx0.nlfsr_word 0 0 24 []).2.2.1 = ksLoopVar 24 fuel ∧
          (procLoopFuel S0 fuel ctx0.nlfsr_word 0 0 24 []).2.2.2.2.length = 32 * fuel)) :=
  ⟨by decide,
    blocks_not_multiple_of_16_loops_forever S0 ctx0.nlfsr_word 0 0 24 [] (by decide)⟩

/-! ## Claim C10 — the NLFSR offset is 0 mod 32 at every API boundary -/

theorem mixStage_off (S : Sbox) (st : MixSt) :
    (mixStage S st).off = m32 (st.off + 28) := rfl

theorem mixStages_off (S : Sbox) (n : Nat) (st : MixSt) :
    (mixStages S (n + 1) st).off = (st.off + 28 * (n + 1)) % two32 := by
  induction n generalizing st with
  | zero =>
    show (mixStage S st).off = _
    rw [mixStage_off]
    unfold m32
    norm_num
  | succ n ih =>
    show (mixStages S (n + 1) (mixStage S st)).off = _
    rw [ih, mixStage_off]
    unfold m32 two32
    omega

theorem keystream_bytes_offset (S : Sbox) (n : Nat) (ctx : ECRYPT_ctx) :
    (ECRYPT_keystream_bytes S ctx n).1.nlfsr_offset = ctx.nlfsr_offset := by
  induction n generalizing ctx with
  | zero => rfl
  | succ n ih =>
    show (ECRYPT_keystream_bytes S _ n).1.nlfsr_offset = _
    rw [ih]
    by_cases h : ctx.buffer_index = 0
    · rw [if_pos h]
      rfl
    · rw [if_neg h]

/-- Claim C10: the NLFSR offset is congruent to 0 mod 32 at every public API
boundary: key setup resets it to 0; IV setup advances it by exactly
`16 * (32 - 4) = 448` (mod `2^32`), which preserves its value mod 32; block
and byte keystream generation and block processing never modify it; and
whenever the offset is 0 mod 32, the logical (offset-based) index of every
in-range word coincides with its physical index, so the round function's
direct physical indexing and the snapshot restore by physical index agree
with offset-based indexing. -/
theorem nlfsr_offset_invariant (S : Sbox) (ctx : ECRYPT_ctx) (key iv : Nat → Nat)
    (keysize ivsize blocks action n : Nat) (ins : List Nat) :
    (ECRYPT_keysetup ctx key keysize ivsize).nlfsr_offset = 0 ∧
      (ECRYPT_ivsetup S ctx iv).nlfsr_offset = (ctx.nlfsr_offset + 448) % two32 ∧
      (ECRYPT_ivsetup S ctx iv).nlfsr_offset % 32 = ctx.nlfsr_offset % 32 ∧
      (ECRYPT_keystream_blocks S ctx blocks).1.nlfsr_offset = ctx.nlfsr_offset ∧
      (ECRYPT_process_blocks S action ctx ins blocks).1.nlfsr_offset = ctx.nlfsr_offset ∧
      (ECRYPT_keystream_bytes S ctx n).1.nlfsr_offset = ctx.nlfsr_offset ∧
      (∀ off i, off % 32 = 0 → i < 32 → (dragonIdx off i : Nat) = i) := by
  have hiv : (ECRYPT_ivsetup S ctx iv).nlfsr_offset =
      (ctx.nlfsr_offset + 448) % two32 := by
    show (mixStages S DRAGON_MIXING_STAGES _).off = _
    rw [show DRAGON_MIXING_STAGES = 15 + 1 from rfl, mixStages_off]
  refine ⟨rfl, hiv, ?_, rfl, rfl, keystream_bytes_offset S n ctx, ?_⟩
  · rw [hiv]
    unfold two32
    omega
  · intro off i h1 h2
    exact dragonIdx_aligned off i h1 h2

/-- Witness for `nlfsr_offset_invariant` at concrete inputs (the final conjunct
instantiated at offset 64 and index 7). -/
theorem nlfsr_offset_invariant_witness :
    (ECRYPT_keysetup ctx0 zbuf 128 128).nlfsr_offset = 0 ∧
      (ECRYPT_ivsetup S0 ctx0 zbuf).nlfsr_offset = (ctx0.nlfsr_offset + 448) % two32 ∧
      (ECRYPT_ivsetup S0 ctx0 zbuf).nlfsr_offset % 32 = ctx0.nlfsr_offset % 32 ∧
      (ECRYPT_keystream_blocks S0 ctx0 16).1.nlfsr_offset = ctx0.nlfsr_offset ∧
      (ECRYPT_process_blocks S0 0 ctx0 [] 16).1.nlfsr_offset = ctx0.nlfsr_offset ∧
      (ECRYPT_keystream_bytes S0 ctx0 3).1.nlfsr_offset = ctx0.nlfsr_offset ∧
      (dragonIdx 64 7 : Nat) = 7 := by
  have h := nlfsr_offset_invariant S0 ctx0 zbuf zbuf 128 128 16 0 3 []
  exact ⟨h.1, h.2.1, h.2.2.1, h.2.2.2.1, h.2.2.2.2.1, h.2.2.2.2.2.1,
    h.2.2.2.2.2.2 64 7 (by decide) (by decide)⟩

/-! ## Claim C7 — counter behaviour of the block calls -/

theorem ksRounds_c2 (S : Sbox) (locs : List RndLocs) (w : Fin 32 → Nat)
    (c1 c2 : Nat) (hc : c2 < two32) :
    (ksRounds S locs w c1 c2).2.1 = (c2 + locs.length) % two32 := by
  induction locs generalizing w c2 with
  | nil =>
    show c2 = _
    rw [List.length_nil, Nat.add_zero, Nat.mod_eq_of_lt hc]
  | cons L rest ih =>
    rw [ksRounds_cons]
    show (ksRounds S rest (BASIC_RND S w c1 c2 L).w c1 (m32 (c2 + 1))).2.1 = _
    have hlt : m32 (c2 + 1) < two32 := Nat.mod_lt _ (by norm_num [two32])
    rw [ih ((BASIC_RND S w c1 c2 L).w) (m32 (c2 + 1)) hlt]
    show ((c2 + 1) % two32 + rest.length) % two32 = _
    rw [Nat.mod_add_mod, List.length_cons]
    ring_nf

theorem processRounds_c2 (S : Sbox) (locs : List RndLocs) (w : Fin 32 → Nat)
    (c1 c2 : Nat) (ins : List Nat) (hc : c2 < two32) :
    (processRounds S locs w c1 c2 ins).2.1 = (c2 + locs.length) % two32 := by
  induction locs generalizing w c2 ins with
  | nil =>
    show c2 = _
    rw [List.length_nil, Nat.add_zero, Nat.mod_eq_of_lt hc]
  | cons L rest ih =>
    rw [processRounds_cons]
    show (processRounds S rest (BASIC_RND S w c1 c2 L).w c1 (m32 (c2 + 1))
      ins.tail.tail).2.1 = _
    have hlt : m32 (c2 + 1) < two32 := Nat.mod_lt _ (by norm_num [two32])
    rw [ih ((BASIC_RND S w c1 c2 L).w) (m32 (c2 + 1)) ins.tail.tail hlt]
    show ((c2 + 1) % two32 + rest.length) % two32 = _
    rw [Nat.mod_add_mod, List.length_cons]
    ring_nf

theorem roundTable_length : roundTable.length = 16 := rfl

theorem ksLoopFuel_c2 (S : Sbox) (fuel : Nat) (w : Fin 32 → Nat)
    (c1 c2 blocks : Nat) (hf : blocks = 16 * fuel) (hb : blocks < two32)
    (hc : c2 < two32) :
    (ksLoopFuel S fuel w c1 c2 blocks).2.1 = (c2 + blocks) % two32 := by
  induction fuel generalizing w c2 blocks with
  | zero =>
    have h0 : blocks = 0 := by omega
    subst h0
    show c2 = _
    rw [Nat.add_zero, Nat.mod_eq_of_lt hc]
  | succ fuel ih =>
    have hpos : 0 < blocks := by omega
    rw [ksLoopFuel_succ_pos S fuel w c1 c2 blocks hpos]
    show (ksLoopFuel S fuel (ksRounds S roundTable w c1 c2).1 c1
      (ksRounds S roundTable w c1 c2).2.1 (ksLoopStep blocks)).2.1 = _
    have hstep : ksLoopStep blocks = 16 * fuel := by
      unfold ksLoopStep m32 two32
      unfold two32 at hb
      omega
    have hltb : ksLoopStep blocks < two32 := by
      unfold ksLoopStep m32
      exact Nat.mod_lt _ (by norm_num [two32])
    have hltc : (ksRounds S roundTable w c1 c2).2.1 < two32 := by
      rw [ksRounds_c2 S roundTable w c1 c2 hc]
      exact Nat.mod_lt _ (by norm_num [two32])
    rw [ih ((ksRounds S roundTable w c1 c2).1) ((ksRounds S roundTable w c1 c2).2.1)
      (ksLoopStep blocks) hstep hltb hltc,
      ksRounds_c2 S roundTable w c1 c2 hc, roundTable_length, Nat.mod_add_mod, hstep]
    have hbl : blocks = 16 * fuel + 16 := by omega
    rw [hbl]
    ring_nf

theorem procLoopFuel_c2 (S : Sbox) (fuel : Nat) (w : Fin 32 → Nat)
    (c1 c2 blocks : Nat) (ins : List Nat) (hf : blocks = 16 * fuel)
    (hb : blocks < two32) (hc : c2 < two32) :
    (procLoopFuel S fuel w c1 c2 blocks ins).2.1 = (c2 + blocks) % two32 := by
  induction fuel generalizing w c2 blocks ins with
  | zero =>
    have h0 : blocks = 0 := by omega
    subst h0
    show c2 = _
    rw [Nat.add_zero, Nat.mod_eq_of_lt hc]
  | succ fuel ih =>
    have hpos : 0 < blocks := by omega
    rw [procLoopFuel_succ_pos S fuel w c1 c2 blocks ins hpos]
    show (procLoopFuel S fuel (processRounds S roundTable w c1 c2 ins).1 c1
      (processRounds S roundTable w c1 c2 ins).2.1 (ksLoopStep blocks)
      (processRounds S roundTable w c1 c2 ins).2.2.1).2.1 = _
    have hstep : ksLoopStep blocks = 16 * fuel := by
      unfold ksLoopStep m32 two32
      unfold two32 at hb
      omega
    have hltb : ksLoopStep blocks < two32 := by
      unfold ksLoopStep m32
      exact Nat.mod_lt _ (by norm_num [two32])
    have hltc : (processRounds S roundTable w c1 c2 ins).2.1 < two32 := by
      rw [processRounds_c2 S roundTable w c1 c2 ins hc]
      exact Nat.mod_lt _ (by norm_num [two32])
    rw [ih ((processRounds S roundTable w c1 c2 ins).1)
      ((processRounds S roundTable w c1 c2 ins).2.1) (ksLoopStep blocks)
      ((processRounds S roundTable w c1 c2 ins).2.2.1) hstep hltb hltc,
      processRounds_c2 S roundTable w c1 c2 ins hc, roundTable_length,
      Nat.mod_add_mod, hstep]
    have hbl : blocks = 16 * fuel + 16 := by omega
    rw [hbl]
    ring_nf

/-- Counter-trace variant of `ksRounds`, following the spec's words: "the
counter value used in a round must be the pre-increment value".  The micro-round
at position `j` of the run folds the explicit pre-increment value
`(c20 + j) % 2^32` into its `f` register; no incremented counter is threaded. -/
def ksRoundsIdx (S : Sbox) : List RndLocs → (Fin 32 → Nat) → Nat → Nat → Nat →
    ((Fin 32 → Nat) × List Nat)
  | [], w, _, _, _ => (w, [])
  | L :: rest, w, c1, c20, j =>
    let r := BASIC_RND S w c1 ((c20 + j) % two32) L
    let t := ksRoundsIdx S rest r.w c1 c20 (j + 1)
    (t.1, r.z1 :: r.z2 :: t.2)

/-- Unfolding equation for `ksRoundsIdx` on a nonempty location list. -/
theorem ksRoundsIdx_cons (S : Sbox) (L : RndLocs) (rest : List RndLocs)
    (w : Fin 32 → Nat) (c1 c20 j : Nat) :
    ksRoundsIdx S (L :: rest) w c1 c20 j =
      ((ksRoundsIdx S rest (BASIC_RND S w c1 ((c20 + j) % two32) L).w c1 c20 (j + 1)).1,
       (BASIC_RND S w c1 ((c20 + j) % two32) L).z1 ::
         (BASIC_RND S w c1 ((c20 + j) % two32) L).z2 ::
         (ksRoundsIdx S rest (BASIC_RND S w c1 ((c20 + j) % two32) L).w c1 c20 (j + 1)).2) :=
  rfl

/-- The threaded-counter round run coincides with the explicit counter-trace
run: starting `ksRounds` at counter `(c20 + j) % 2^32`, every later micro-round
at relative position `m` folds exactly `(c20 + j + m) % 2^32` — the
pre-increment value. -/
theorem ksRounds_eq_idx (S : Sbox) (locs : List RndLocs) (w : Fin 32 → Nat)
    (c1 c20 j : Nat) :
    (ksRounds S locs w c1 ((c20 + j) % two32)).1 = (ksRoundsIdx S locs w c1 c20 j).1 ∧
      (ksRounds S locs w c1 ((c20 + j) % two32)).2.2 = (ksRoundsIdx S locs w c1 c20 j).2 := by
  induction locs generalizing w j with
  | nil => exact ⟨rfl, rfl⟩
  | cons L rest ih =>
    rw [ksRounds_cons, ksRoundsIdx_cons]
    have hc2 : m32 ((c20 + j) % two32 + 1) = (c20 + (j + 1)) % two32 := by
      unfold m32
      rw [Nat.mod_add_mod, Nat.add_assoc]
    refine ⟨?_, ?_⟩
    · show (ksRounds S rest _ c1 (m32 ((c20 + j) % two32 + 1))).1 = _
      rw [hc2]
      exact (ih _ (j + 1)).1
    · show _ :: _ :: (ksRounds S rest _ c1 (m32 ((c20 + j) % two32 + 1))).2.2 = _
      rw [hc2]
      rw [(ih _ (j + 1)).2]

/-- Claim C7: for a call of `ECRYPT_keystream_blocks` or `ECRYPT_process_blocks`
with `blockCount` a positive multiple of 16 (below `2^32`, its C type), the
stored low counter word after the call is the pre-call low word plus
`blockCount` mod `2^32`; the stored high word is incremented exactly once if
and only if the low word's end value is below its pre-call value (the fold-back
is a single comparison per call, after the loop); and within the rounds the
counter folded into micro-round `j` is the pre-increment value
`(low + j) % 2^32`: the threaded run equals the explicit pre-increment trace. -/
theorem counter_fold_back (S : Sbox) (ctx : ECRYPT_ctx) (blocks : Nat)
    (ins : List Nat) (h16 : 16 ∣ blocks) (hpos : 0 < blocks) (hb : blocks < two32)
    (hlow : ctx.state_counter1 < two32) :
    ((ECRYPT_keystream_blocks S ctx blocks).1.state_counter1
        = (ctx.state_counter1 + blocks) % two32) ∧
      ((ECRYPT_keystream_blocks S ctx blocks).1.state_counter0
        = if (ctx.state_counter1 + blocks) % two32 < ctx.state_counter1
          then m32 (ctx.state_counter0 + 1) else ctx.state_counter0) ∧
      ((ECRYPT_process_blocks S 0 ctx ins blocks).1.state_counter1
        = (ctx.state_counter1 + blocks) % two32) ∧
      ((ECRYPT_process_blocks S 0 ctx ins blocks).1.state_counter0
        = if (ctx.state_counter1 + blocks) % two32 < ctx.state_counter1
          then m32 (ctx.state_counter0 + 1) else ctx.state_counter0) ∧
      (∀ locs (w : Fin 32 → Nat),
        (ksRounds S locs w ctx.state_counter0 ctx.state_counter1).1
            = (ksRoundsIdx S locs w ctx.state_counter0 ctx.state_counter1 0).1 ∧
          (ksRounds S locs w ctx.state_counter0 ctx.state_counter1).2.2
            = (ksRoundsIdx S locs w ctx.state_counter0 ctx.state_counter1 0).2) := by
  have hf : blocks = 16 * (blocks / 16) := (Nat.mul_div_cancel' h16).symm
  have hks : (ksLoopFuel S (blocks / 16) ctx.nlfsr_word ctx.state_counter0
      ctx.state_counter1 blocks).2.1 = (ctx.state_counter1 + blocks) % two32 :=
    ksLoopFuel_c2 S (blocks / 16) ctx.nlfsr_word ctx.state_counter0
      ctx.state_counter1 blocks hf hb hlow
  have hpr : (procLoopFuel S (blocks / 16) ctx.nlfsr_word ctx.state_counter0
      ctx.state_counter1 blocks ins).2.1 = (ctx.state_counter1 + blocks) % two32 :=
    procLoopFuel_c2 S (blocks / 16) ctx.nlfsr_word ctx.state_counter0
      ctx.state_counter1 blocks ins hf hb hlow
  refine ⟨hks, ?_, hpr, ?_, ?_⟩
  · show (if (ksLoopFuel S (blocks / 16) ctx.nlfsr_word ctx.state_counter0
        ctx.state_counter1 blocks).2.1 < ctx.state_counter1
        then m32 (ctx.state_counter0 + 1) else ctx.state_counter0) = _
    rw [hks]
  · show (if (procLoopFuel S (blocks / 16) ctx.nlfsr_word ctx.state_counter0
        ctx.state_counter1 blocks ins).2.1 < ctx.state_counter1
        then m32 (ctx.state_counter0 + 1) else ctx.state_counter0) = _
    rw [hpr]
  · intro locs w
    have h0 : (ctx.state_counter1 + 0) % two32 = ctx.state_counter1 := by
      rw [Nat.add_zero, Nat.mod_eq_of_lt hlow]
    have h := ksRounds_eq_idx S locs w ctx.state_counter0 ctx.state_counter1 0
    rw [h0] at h
    exact h

/-- Witness for `counter_fold_back`: 16 blocks from the concrete context. -/
theorem counter_fold_back_witness :
    (ECRYPT_keystream_blocks S0 ctx0 16).1.state_counter1
        = (ctx0.state_counter1 + 16) % two32 ∧
      (ECRYPT_keystream_blocks S0 ctx0 16).1.state_counter0
        = (if (ctx0.state_counter1 + 16) % two32 < ctx0.state_counter1
           then m32 (ctx0.state_counter0 + 1) else ctx0.state_counter0) := by
  have h := counter_fold_back S0 ctx0 16 [] (by decide) (by decide)
    (by decide) (by decide)
  exact ⟨h.1, h.2.1⟩

/-! ## Claim C9 — the byte-stream adapter's cursor never advances

The cursor-advance line of `ECRYPT_keystream_bytes` is
`ctx->buffer_index = (ctx->buffer_index % DRAGON_BUFFER_SIZE);` — no `+ 1` —
so from `buffer_index = 0` the cursor is 0 before and after every emitted byte,
and every byte request refills the staging buffer afresh. -/

theorem dragonRefill_buffer_index (S : Sbox) (ctx : ECRYPT_ctx) :
    (dragonRefill S ctx).buffer_index = ctx.buffer_index := rfl

theorem dragonRefill_iterate_buffer_index (S : Sbox) (n : Nat) (ctx : ECRYPT_ctx) :
    ((dragonRefill S)^[n] ctx).buffer_index = ctx.buffer_index := by
  induction n generalizing ctx with
  | zero => rfl
  | succ n ih =>
    rw [Function.iterate_succ_apply, ih, dragonRefill_buffer_index]

theorem ctx_cursor_eta (c : ECRYPT_ctx) (h : c.buffer_index = 0) :
    ({ c with buffer_index := c.buffer_index % DRAGON_BUFFER_SIZE } : ECRYPT_ctx) = c := by
  have h2 : c.buffer_index % DRAGON_BUFFER_SIZE = c.buffer_index := by
    rw [h]
    rfl
  rw [h2]

/-- Closed form of `ECRYPT_keystream_bytes` from a cursor-0 state: the final
state is `n` refills of the initial state, and the `i`-th emitted byte is byte
0 of the staging buffer after the `(i+1)`-st refill. -/
theorem keystream_bytes_spine (S : Sbox) (n : Nat) (ctx : ECRYPT_ctx)
    (h : ctx.buffer_index = 0) :
    (ECRYPT_keystream_bytes S ctx n).1 = (dragonRefill S)^[n] ctx ∧
      (ECRYPT_keystream_bytes S ctx n).2
        = (List.range n).map
            (fun i => ((dragonRefill S)^[i + 1] ctx).keystream_buffer.getD 0 0) := by
  induction n generalizing ctx with
  | zero => exact ⟨rfl, rfl⟩
  | succ n ih =>
    have hr : (dragonRefill S ctx).buffer_index = 0 := by
      rw [dragonRefill_buffer_index, h]
    have heta : ({ dragonRefill S ctx with
        buffer_index := (dragonRefill S ctx).buffer_index % DRAGON_BUFFER_SIZE } :
          ECRYPT_ctx) = dragonRefill S ctx :=
      ctx_cursor_eta (dragonRefill S ctx) hr
    have hbody : ECRYPT_keystream_bytes S ctx (n + 1) =
        ((ECRYPT_keystream_bytes S (dragonRefill S ctx) n).1,
         (dragonRefill S ctx).keystream_buffer.getD 0 0 ::
           (ECRYPT_keystream_bytes S (dragonRefill S ctx) n).2) := by
      show (let c1 := if ctx.buffer_index = 0 then dragonRefill S ctx else ctx
            let b := c1.keystream_buffer.getD c1.buffer_index 0
            let c2 : ECRYPT_ctx := { c1 with buffer_index := c1.buffer_index % DRAGON_BUFFER_SIZE }
            let t := ECRYPT_keystream_bytes S c2 n
            (t.1, b :: t.2)) = _
      rw [if_pos h]
      show ((ECRYPT_keystream_bytes S { dragonRefill S ctx with
          buffer_index := (dragonRefill S ctx).buffer_index % DRAGON_BUFFER_SIZE } n).1,
        (dragonRefill S ctx).keystream_buffer.getD (dragonRefill S ctx).buffer_index 0 ::
          (ECRYPT_keystream_bytes S { dragonRefill S ctx with
            buffer_index := (dragonRefill S ctx).buffer_index % DRAGON_BUFFER_SIZE } n).2) = _
      rw [heta, hr]
    rw [hbody]
    refine ⟨?_, ?_⟩
    · show (ECRYPT_keystream_bytes S (dragonRefill S ctx) n).1 = _
      rw [(ih (dragonRefill S ctx) hr).1, ← Function.iterate_succ_apply]
    · show _ :: (ECRYPT_keystream_bytes S (dragonRefill S ctx) n).2 = _
      rw [(ih (dragonRefill S ctx) hr).2, List.range_succ_eq_map, List.map_cons,
        List.map_map]
      have hfe : ((fun i => ((dragonRefill S)^[i + 1] ctx).keystream_buffer.getD 0 0) ∘
          Nat.succ) = (fun i => ((dragonRefill S)^[i + 1] (dragonRefill S ctx)).keystream_buffer.getD 0 0) := by
        funext i
        show ((dragonRefill S)^[i + 1 + 1] ctx).keystream_buffer.getD 0 0 = _
        rw [Function.iterate_succ_apply ((dragonRefill S)) (i + 1) ctx]
      rw [hfe]
      rfl

/-- Claim C9: from a cursor-0 state the byte adapter's cursor update
(`buffer_index % DRAGON_BUFFER_SIZE`, with no increment) keeps `buffer_index`
at 0 across every emitted byte: after `n` requested bytes the state is exactly
`n` staging-buffer refills (one fresh 16-block refill per byte), the cursor is
still 0, and the `i`-th emitted byte is byte 0 of the `(i+1)`-st refill. -/
theorem byte_adapter_cursor_never_advances (S : Sbox) (ctx : ECRYPT_ctx) (n : Nat)
    (h : ctx.buffer_index = 0) :
    (ECRYPT_keystream_bytes S ctx n).1.buffer_index = 0 ∧
      (ECRYPT_keystream_bytes S ctx n).1 = (dragonRefill S)^[n] ctx ∧
      (ECRYPT_keystream_bytes S ctx n).2
        = (List.range n).map
            (fun i => ((dragonRefill S)^[i + 1] ctx).keystream_buffer.getD 0 0) := by
  have hs := keystream_bytes_spine S n ctx h
  refine ⟨?_, hs.1, hs.2⟩
  rw [hs.1, dragonRefill_iterate_buffer_index, h]

/-- Witness for `byte_adapter_cursor_never_advances` at two requested bytes. -/
theorem byte_adapter_cursor_never_advances_witness :
    (ECRYPT_keystream_bytes S0 ctx0 2).1.buffer_index = 0 ∧
      (ECRYPT_keystream_bytes S0 ctx0 2).1 = (dragonRefill S0)^[2] ctx0 ∧
      (ECRYPT_keystream_bytes S0 ctx0 2).2
        = (List.range 2).map
            (fun i => ((dragonRefill S0)^[i + 1] ctx0).keystream_buffer.getD 0 0) :=
  byte_adapter_cursor_never_advances S0 ctx0 2 (by decide)

/-! ## Claim C1 — byte/block equivalence fails on the code

Because the cursor never advances (claim C9), `ECRYPT_keystream_bytes` emits
byte 0 of a fresh 16-block refill for every requested byte: its byte `i` is
byte `128 * i` of the block-oriented keystream, not byte `i`.  The spec itself
flags this line as "almost certainly an error in the reference implementation"
(section 9), so the intended byte/block equivalence is taken as the ground
truth and the code as the bug. -/

/-- Claim C1 (code bug, demonstrated): from the concrete cursor-0 state `ctx0`
with the trivial S-boxes, byte 1 of `ECRYPT_keystream_bytes(·, 128)` (a
128-byte request, i.e. `length/8 = 16` blocks) differs from byte 1 of the
byte stream of `ECRYPT_keystream_blocks(·, 16)`: the adapter output is *not*
byte-for-byte equal to the block-oriented output. -/
theorem keystream_bytes_neq_blocks_at_byte1 :
    (ECRYPT_keystream_bytes S0 ctx0 128).2.getD 1 0 ≠
      (bytesOfWords (ECRYPT_keystream_blocks S0 ctx0 16).2).getD 1 0 := by
  have hs := keystream_bytes_spine S0 128 ctx0 (by decide)
  rw [hs.2]
  have hmap : ((List.range 128).map
      (fun i => ((dragonRefill S0)^[i + 1] ctx0).keystream_buffer.getD 0 0)).getD 1 0
      = ((dragonRefill S0)^[2] ctx0).keystream_buffer.getD 0 0 := by
    rfl
  rw [hmap]
  decide

/-! ## Claim C5 — determinism: the keystream depends only on key, IV, length

After the IV merge phase, every NLFSR slot is a function of the key and IV
words alone: the slots key setup writes are overwritten or xored over known
key values, and every slot key setup leaves untouched (8..11, 24..27 in
128-bit mode; 24..31 in 256-bit mode) is overwritten directly by the merge
before any mixing stage reads it. -/

set_option maxHeartbeats 2000000 in
theorem merge128_keysetup_independent (key iv : Nat → Nat) (w w' : Fin 32 → Nat) :
    ivMergeWords128 iv (keysetupWords128 key w)
      = ivMergeWords128 iv (keysetupWords128 key w') := by
  funext i
  fin_cases i <;> simp +decide [keysetupWords128, ivMergeWords128, wupd_apply]

set_option maxHeartbeats 2000000 in
theorem merge256_keysetup_independent (key iv : Nat → Nat) (w w' : Fin 32 → Nat) :
    ivMergeWords256 iv (keysetupWords256 key w)
      = ivMergeWords256 iv (keysetupWords256 key w') := by
  funext i
  fin_cases i <;> simp +decide [keysetupWords256, ivMergeWords256, wupd_apply]

theorem keysetup_nlfsr_word (ctx : ECRYPT_ctx) (key : Nat → Nat) (keysize ivsize : Nat) :
    (ECRYPT_keysetup ctx key keysize ivsize).nlfsr_word
      = if keysize = 128 then keysetupWords128 key ctx.nlfsr_word
        else keysetupWords256 key ctx.nlfsr_word := rfl

theorem keysetup_full_rekeying (ctx : ECRYPT_ctx) (key : Nat → Nat) (keysize ivsize : Nat) :
    (ECRYPT_keysetup ctx key keysize ivsize).full_rekeying = 1 := rfl

theorem keysetup_key_size (ctx : ECRYPT_ctx) (key : Nat → Nat) (keysize ivsize : Nat) :
    (ECRYPT_keysetup ctx key keysize ivsize).key_size = keysize := rfl

theorem keysetup_offset (ctx : ECRYPT_ctx) (key : Nat → Nat) (keysize ivsize : Nat) :
    (ECRYPT_keysetup ctx key keysize ivsize).nlfsr_offset = 0 := rfl

theorem keysetup_init_state (ctx : ECRYPT_ctx) (key : Nat → Nat) (keysize ivsize : Nat) :
    (ECRYPT_keysetup ctx key keysize ivsize).init_state
      = if keysize = 128 then keysetupWords128 key ctx.nlfsr_word
        else keysetupWords256 key ctx.nlfsr_word := rfl

theorem ivsetup_nlfsr_word (S : Sbox) (ctx : ECRYPT_ctx) (iv : Nat → Nat) :
    (ECRYPT_ivsetup S ctx iv).nlfsr_word =
      (mixStages S DRAGON_MIXING_STAGES
        { w := if ctx.key_size = 128
               then ivMergeWords128 iv
                 (if ctx.full_rekeying = 0 then ctx.init_state else ctx.nlfsr_word)
               else ivMergeWords256 iv
                 (if ctx.full_rekeying = 0 then ctx.init_state else ctx.nlfsr_word)
          off := ctx.nlfsr_offset
          e := 0x00004472
          f := 0x61676F6E }).w := rfl

theorem ivsetup_counter0 (S : Sbox) (ctx : ECRYPT_ctx) (iv : Nat → Nat) :
    (ECRYPT_ivsetup S ctx iv).state_counter0 =
      (mixStages S DRAGON_MIXING_STAGES
        { w := if ctx.key_size = 128
               then ivMergeWords128 iv
                 (if ctx.full_rekeying = 0 then ctx.init_state else ctx.nlfsr_word)
               else ivMergeWords256 iv
                 (if ctx.full_rekeying = 0 then ctx.init_state else ctx.nlfsr_word)
          off := ctx.nlfsr_offset
          e := 0x00004472
          f := 0x61676F6E }).e := rfl

theorem ivsetup_counter1 (S : Sbox) (ctx : ECRYPT_ctx) (iv : Nat → Nat) :
    (ECRYPT_ivsetup S ctx iv).state_counter1 =
      (mixStages S DRAGON_MIXING_STAGES
        { w := if ctx.key_size = 128
               then ivMergeWords128 iv
                 (if ctx.full_rekeying = 0 then ctx.init_state else ctx.nlfsr_word)
               else ivMergeWords256 iv
                 (if ctx.full_rekeying = 0 then ctx.init_state else ctx.nlfsr_word)
          off := ctx.nlfsr_offset
          e := 0x00004472
          f := 0x61676F6E }).f := rfl

/-- The output of a block keystream call depends on the context only through
the NLFSR array and the two stream counters. -/
theorem keystream_blocks_out_congr (S : Sbox) (c d : ECRYPT_ctx) (blocks : Nat)
    (hw : c.nlfsr_word = d.nlfsr_word) (h0 : c.state_counter0 = d.state_counter0)
    (h1 : c.state_counter1 = d.state_counter1) :
    (ECRYPT_keystream_blocks S c blocks).2 = (ECRYPT_keystream_blocks S d blocks).2 := by
  show (ksLoopFuel S (blocks / 16) c.nlfsr_word c.state_counter0 c.state_counter1
    blocks).2.2.2 = (ksLoopFuel S (blocks / 16) d.nlfsr_word d.state_counter0
      d.state_counter1 blocks).2.2.2
  rw [hw, h0, h1]

theorem ite_one_zero {α : Sort _} (a b : α) : (if (1 : Nat) = 0 then a else b) = b := rfl

theorem ite_256_128 {α : Sort _} (a b : α) : (if (256 : Nat) = 128 then a else b) = b := rfl

/-- Claim C5: for a supported key size, two key-setup + IV-setup + block
keystream generation runs with the same key, IV and length produce identical
keystream words — hence byte-identical keystream — regardless of the initial
contents of the two contexts: in particular the output does not depend on the
NLFSR slots key setup does not write, because IV setup overwrites every such
slot before the mixing stages run. -/
theorem keystream_deterministic (S : Sbox) (ctx1 ctx2 : ECRYPT_ctx)
    (key iv : Nat → Nat) (keysize ivsize1 ivsize2 blocks : Nat)
    (hks : keysize = 128 ∨ keysize = 256) (h16 : 16 ∣ blocks) :
    (ECRYPT_keystream_blocks S
        (ECRYPT_ivsetup S (ECRYPT_keysetup ctx1 key keysize ivsize1) iv) blocks).2
      = (ECRYPT_keystream_blocks S
          (ECRYPT_ivsetup S (ECRYPT_keysetup ctx2 key keysize ivsize2) iv) blocks).2 ∧
      bytesOfWords (ECRYPT_keystream_blocks S
        (ECRYPT_ivsetup S (ECRYPT_keysetup ctx1 key keysize ivsize1) iv) blocks).2
      = bytesOfWords (ECRYPT_keystream_blocks S
          (ECRYPT_ivsetup S (ECRYPT_keysetup ctx2 key keysize ivsize2) iv) blocks).2 := by
  have hout : (ECRYPT_keystream_blocks S
      (ECRYPT_ivsetup S (ECRYPT_keysetup ctx1 key keysize ivsize1) iv) blocks).2
      = (ECRYPT_keystream_blocks S
          (ECRYPT_ivsetup S (ECRYPT_keysetup ctx2 key keysize ivsize2) iv) blocks).2 := by
    rcases hks with h | h <;> subst h
    · apply keystream_blocks_out_congr
      · rw [ivsetup_nlfsr_word, ivsetup_nlfsr_word]
        simp only [keysetup_key_size, keysetup_full_rekeying, keysetup_offset,
          keysetup_nlfsr_word, reduceIte, ite_one_zero]
        rw [merge128_keysetup_independent key iv ctx1.nlfsr_word ctx2.nlfsr_word]
      · rw [ivsetup_counter0, ivsetup_counter0]
        simp only [keysetup_key_size, keysetup_full_rekeying, keysetup_offset,
          keysetup_nlfsr_word, reduceIte, ite_one_zero]
        rw [merge128_keysetup_independent key iv ctx1.nlfsr_word ctx2.nlfsr_word]
      · rw [ivsetup_counter1, ivsetup_counter1]
        simp only [keysetup_key_size, keysetup_full_rekeying, keysetup_offset,
          keysetup_nlfsr_word, reduceIte, ite_one_zero]
        rw [merge128_keysetup_independent key iv ctx1.nlfsr_word ctx2.nlfsr_word]
    · apply keystream_blocks_out_congr
      · rw [ivsetup_nlfsr_word, ivsetup_nlfsr_word]
        simp only [keysetup_key_size, keysetup_full_rekeying, keysetup_offset,
          keysetup_nlfsr_word, reduceIte, ite_one_zero, ite_256_128]
        rw [merge256_keysetup_independent key iv ctx1.nlfsr_word ctx2.nlfsr_word]
      · rw [ivsetup_counter0, ivsetup_counter0]
        simp only [keysetup_key_size, keysetup_full_rekeying, keysetup_offset,
          keysetup_nlfsr_word, reduceIte, ite_one_zero, ite_256_128]
        rw [merge256_keysetup_independent key iv ctx1.nlfsr_word ctx2.nlfsr_word]
      · rw [ivsetup_counter1, ivsetup_counter1]
        simp only [keysetup_key_size, keysetup_full_rekeying, keysetup_offset,
          keysetup_nlfsr_word, reduceIte, ite_one_zero, ite_256_128]
        rw [merge256_keysetup_independent key iv ctx1.nlfsr_word ctx2.nlfsr_word]
  exact ⟨hout, by rw [hout]⟩

/-- Witness for `keystream_deterministic`: 128-bit zero key/IV from two
contexts with different initial NLFSR contents. -/
theorem keystream_deterministic_witness :
    (ECRYPT_keystream_blocks S0
        (ECRYPT_ivsetup S0 (ECRYPT_keysetup ctx0 zbuf 128 128) zbuf) 16).2
      = (ECRYPT_keystream_blocks S0
          (ECRYPT_ivsetup S0 (ECRYPT_keysetup ctx5 zbuf 128 128) zbuf) 16).2 ∧
      bytesOfWords (ECRYPT_keystream_blocks S0
        (ECRYPT_ivsetup S0 (ECRYPT_keysetup ctx0 zbuf 128 128) zbuf) 16).2
      = bytesOfWords (ECRYPT_keystream_blocks S0
          (ECRYPT_ivsetup S0 (ECRYPT_keysetup ctx5 zbuf 128 128) zbuf) 16).2 :=
  keystream_deterministic S0 ctx0 ctx5 zbuf zbuf 128 128 128 16 (Or.inl rfl) (by decide)

/-! ## Claim C6 — a second IV setup restores the key snapshot

`ECRYPT_ivsetup` on a state with `full_rekeying == 0` restores the NLFSR from
`init_state` before merging the IV, so it undoes everything the round function
and the previous IV mixing did to the NLFSR.  The only field that does not
return to its first-run value is `nlfsr_offset` (the mixing stages keep adding
448 to it), but 448 is a multiple of 32, so all masked indexing — and hence the
NLFSR contents, the counters, and all subsequent keystream — coincide. -/

theorem ivsetup_full_rekeying (S : Sbox) (ctx : ECRYPT_ctx) (iv : Nat → Nat) :
    (ECRYPT_ivsetup S ctx iv).full_rekeying = 0 := rfl

theorem ivsetup_init_state (S : Sbox) (ctx : ECRYPT_ctx) (iv : Nat → Nat) :
    (ECRYPT_ivsetup S ctx iv).init_state = ctx.init_state := rfl

theorem ivsetup_key_size (S : Sbox) (ctx : ECRYPT_ctx) (iv : Nat → Nat) :
    (ECRYPT_ivsetup S ctx iv).key_size = ctx.key_size := rfl

theorem ivsetup_offset (S : Sbox) (ctx : ECRYPT_ctx) (iv : Nat → Nat) :
    (ECRYPT_ivsetup S ctx iv).nlfsr_offset =
      (mixStages S DRAGON_MIXING_STAGES
        { w := if ctx.key_size = 128
               then ivMergeWords128 iv
                 (if ctx.full_rekeying = 0 then ctx.init_state else ctx.nlfsr_word)
               else ivMergeWords256 iv
                 (if ctx.full_rekeying = 0 then ctx.init_state else ctx.nlfsr_word)
          off := ctx.nlfsr_offset
          e := 0x00004472
          f := 0x61676F6E }).off := rfl

theorem ks_blocks_init_state (S : Sbox) (c : ECRYPT_ctx) (blocks : Nat) :
    (ECRYPT_keystream_blocks S c blocks).1.init_state = c.init_state := rfl

theorem ks_blocks_key_size (S : Sbox) (c : ECRYPT_ctx) (blocks : Nat) :
    (ECRYPT_keystream_blocks S c blocks).1.key_size = c.key_size := rfl

theorem ks_blocks_full_rekeying (S : Sbox) (c : ECRYPT_ctx) (blocks : Nat) :
    (ECRYPT_keystream_blocks S c blocks).1.full_rekeying = c.full_rekeying := rfl

theorem ks_blocks_offset (S : Sbox) (c : ECRYPT_ctx) (blocks : Nat) :
    (ECRYPT_keystream_blocks S c blocks).1.nlfsr_offset = c.nlfsr_offset := rfl

theorem mixStage_congr (S : Sbox) (st1 st2 : MixSt) (hw : st1.w = st2.w)
    (he : st1.e = st2.e) (hf : st1.f = st2.f) (ho : st1.off % 32 = st2.off % 32) :
    (mixStage S st1).w = (mixStage S st2).w ∧
      (mixStage S st1).e = (mixStage S st2).e ∧
      (mixStage S st1).f = (mixStage S st2).f ∧
      (mixStage S st1).off % 32 = (mixStage S st2).off % 32 := by
  have hidx : ∀ i, dragonIdx st1.off i = dragonIdx st2.off i :=
    fun i => dragonIdx_congr st1.off st2.off i ho
  have ho28 : m32 (st1.off + 28) % 32 = m32 (st2.off + 28) % 32 := by
    rw [m32_mod32, m32_mod32, Nat.add_mod, ho, ← Nat.add_mod]
  have hidx28 : ∀ i, dragonIdx (m32 (st1.off + 28)) i = dragonIdx (m32 (st2.off + 28)) i :=
    fun i => dragonIdx_congr _ _ i ho28
  refine ⟨?_, ?_, ?_, ?_⟩ <;>
    simp only [mixStage, hw, he, hf, hidx, hidx28, ho28]

theorem mixStages_congr (S : Sbox) (n : Nat) (st1 st2 : MixSt) (hw : st1.w = st2.w)
    (he : st1.e = st2.e) (hf : st1.f = st2.f) (ho : st1.off % 32 = st2.off % 32) :
    (mixStages S n st1).w = (mixStages S n st2).w ∧
      (mixStages S n st1).e = (mixStages S n st2).e ∧
      (mixStages S n st1).f = (mixStages S n st2).f ∧
      (mixStages S n st1).off % 32 = (mixStages S n st2).off % 32 := by
  induction n generalizing st1 st2 with
  | zero => exact ⟨hw, he, hf, ho⟩
  | succ n ih =>
    have h1 := mixStage_congr S st1 st2 hw he hf ho
    exact ih (mixStage S st1) (mixStage S st2) h1.1 h1.2.1 h1.2.2.1 h1.2.2.2

set_option maxHeartbeats 1000000 in
/-- Claim C6: on a keyed state, every IV setup after the first restores the
NLFSR from the key snapshot before merging the IV: re-running `ECRYPT_ivsetup`
with the same IV after generating keystream reproduces exactly the NLFSR
contents and both stream counters of the first run, and the subsequent
keystream is identical — each message under one key is independent of the
previous message's round-function and IV-mixing effects.  (The only field that
differs is `nlfsr_offset`, which has grown by a further 448, a multiple of 32,
so it addresses the same physical slots.) -/
theorem second_ivsetup_restores_snapshot (S : Sbox) (ctx : ECRYPT_ctx)
    (key iv : Nat → Nat) (keysize ivsize n m : Nat) (h16 : 16 ∣ n) (hm : 16 ∣ m) :
    ((ECRYPT_ivsetup S (ECRYPT_keystream_blocks S
          (ECRYPT_ivsetup S (ECRYPT_keysetup ctx key keysize ivsize) iv) n).1 iv).nlfsr_word
        = (ECRYPT_ivsetup S (ECRYPT_keysetup ctx key keysize ivsize) iv).nlfsr_word) ∧
      ((ECRYPT_ivsetup S (ECRYPT_keystream_blocks S
          (ECRYPT_ivsetup S (ECRYPT_keysetup ctx key keysize ivsize) iv) n).1 iv).state_counter0
        = (ECRYPT_ivsetup S (ECRYPT_keysetup ctx key keysize ivsize) iv).state_counter0) ∧
      ((ECRYPT_ivsetup S (ECRYPT_keystream_blocks S
          (ECRYPT_ivsetup S (ECRYPT_keysetup ctx key keysize ivsize) iv) n).1 iv).state_counter1
        = (ECRYPT_ivsetup S (ECRYPT_keysetup ctx key keysize ivsize) iv).state_counter1) ∧
      ((ECRYPT_keystream_blocks S (ECRYPT_ivsetup S (ECRYPT_keystream_blocks S
          (ECRYPT_ivsetup S (ECRYPT_keysetup ctx key keysize ivsize) iv) n).1 iv) m).2
        = (ECRYPT_keystream_blocks S
            (ECRYPT_ivsetup S (ECRYPT_keysetup ctx key keysize ivsize) iv) m).2) := by
  have hfr : (ECRYPT_keystream_blocks S
      (ECRYPT_ivsetup S (ECRYPT_keysetup ctx key keysize ivsize) iv) n).1.full_rekeying
      = 0 := by
    rw [ks_blocks_full_rekeying, ivsetup_full_rekeying]
  have his : (ECRYPT_keystream_blocks S
      (ECRYPT_ivsetup S (ECRYPT_keysetup ctx key keysize ivsize) iv) n).1.init_state
      = (if keysize = 128 then keysetupWords128 key ctx.nlfsr_word
         else keysetupWords256 key ctx.nlfsr_word) := by
    rw [ks_blocks_init_state, ivsetup_init_state, keysetup_init_state]
  have hsz : (ECRYPT_keystream_blocks S
      (ECRYPT_ivsetup S (ECRYPT_keysetup ctx key keysize ivsize) iv) n).1.key_size
      = keysize := by
    rw [ks_blocks_key_size, ivsetup_key_size, keysetup_key_size]
  have hoff : (ECRYPT_keystream_blocks S
      (ECRYPT_ivsetup S (ECRYPT_keysetup ctx key keysize ivsize) iv) n).1.nlfsr_offset % 32
      = 0 % 32 := by
    rw [ks_blocks_offset, ivsetup_offset, keysetup_offset,
      show DRAGON_MIXING_STAGES = 15 + 1 from rfl, mixStages_off]
    norm_num [two32]
  have hw : (ECRYPT_ivsetup S (ECRYPT_keystream_blocks S
      (ECRYPT_ivsetup S (ECRYPT_keysetup ctx key keysize ivsize) iv) n).1 iv).nlfsr_word
      = (ECRYPT_ivsetup S (ECRYPT_keysetup ctx key keysize ivsize) iv).nlfsr_word := by
    rw [ivsetup_nlfsr_word, ivsetup_nlfsr_word, hfr, his, hsz]
    simp only [keysetup_key_size, keysetup_full_rekeying, keysetup_nlfsr_word,
      keysetup_offset, reduceIte, ite_one_zero]
    exact (mixStages_congr S DRAGON_MIXING_STAGES
      { w := if keysize = 128 then
             ivMergeWords128 iv
               (if keysize = 128 then keysetupWords128 key ctx.nlfsr_word
                else keysetupWords256 key ctx.nlfsr_word)
           else
             ivMergeWords256 iv
               (if keysize = 128 then keysetupWords128 key ctx.nlfsr_word
                else keysetupWords256 key ctx.nlfsr_word)
        off := (ECRYPT_keystream_blocks S
          (ECRYPT_ivsetup S (ECRYPT_keysetup ctx key keysize ivsize) iv) n).1.nlfsr_offset
        e := 17522
        f := 1634168686 }
      { w := if keysize = 128 then
             ivMergeWords128 iv
               (if keysize = 128 then keysetupWords128 key ctx.nlfsr_word
                else keysetupWords256 key ctx.nlfsr_word)
           else
             ivMergeWords256 iv
               (if keysize = 128 then keysetupWords128 key ctx.nlfsr_word
                else keysetupWords256 key ctx.nlfsr_word)
        off := 0
        e := 17522
        f := 1634168686 }
      rfl rfl rfl hoff).1
  have h0 : (ECRYPT_ivsetup S (ECRYPT_keystream_blocks S
      (ECRYPT_ivsetup S (ECRYPT_keysetup ctx key keysize ivsize) iv) n).1 iv).state_counter0
      = (ECRYPT_ivsetup S (ECRYPT_keysetup ctx key keysize ivsize) iv).state_counter0 := by
    rw [ivsetup_counter0, ivsetup_counter0, hfr, his, hsz]
    simp only [keysetup_key_size, keysetup_full_rekeying, keysetup_nlfsr_word,
      keysetup_offset, reduceIte, ite_one_zero]
    exact (mixStages_congr S DRAGON_MIXING_STAGES
      { w := if keysize = 128 then
             ivMergeWords128 iv
               (if keysize = 128 then keysetupWords128 key ctx.nlfsr_word
                else keysetupWords256 key ctx.nlfsr_word)
           else
             ivMergeWords256 iv
               (if keysize = 128 then keysetupWords128 key ctx.nlfsr_word
                else keysetupWords256 key ctx.nlfsr_word)
        off := (ECRYPT_keystream_blocks S
          (ECRYPT_ivsetup S (ECRYPT_keysetup ctx key keysize ivsize) iv) n).1.nlfsr_offset
        e := 17522
        f := 1634168686 }
      { w := if keysize = 128 then
             ivMergeWords128 iv
               (if keysize = 128 then keysetupWords128 key ctx.nlfsr_word
                else keysetupWords256 key ctx.nlfsr_word)
           else
             ivMergeWords256 iv
               (if keysize = 128 then keysetupWords128 key ctx.nlfsr_word
                else keysetupWords256 key ctx.nlfsr_word)
        off := 0
        e := 17522
        f := 1634168686 }
      rfl rfl rfl hoff).2.1
  have h1 : (ECRYPT_ivsetup S (ECRYPT_keystream_blocks S
      (ECRYPT_ivsetup S (ECRYPT_keysetup ctx key keysize ivsize) iv) n).1 iv).state_counter1
      = (ECRYPT_ivsetup S (ECRYPT_keysetup ctx key keysize ivsize) iv).state_counter1 := by
    rw [ivsetup_counter1, ivsetup_counter1, hfr, his, hsz]
    simp only [keysetup_key_size, keysetup_full_rekeying, keysetup_nlfsr_word,
      keysetup_offset, reduceIte, ite_one_zero]
    exact (mixStages_congr S DRAGON_MIXING_STAGES
      { w := if keysize = 128 then
             ivMergeWords128 iv
               (if keysize = 128 then keysetupWords128 key ctx.nlfsr_word
                else keysetupWords256 key ctx.nlfsr_word)
           else
             ivMergeWords256 iv
               (if keysize = 128 then keysetupWords128 key ctx.nlfsr_word
                else keysetupWords256 key ctx.nlfsr_word)
        off := (ECRYPT_keystream_blocks S
          (ECRYPT_ivsetup S (ECRYPT_keysetup ctx key keysize ivsize) iv) n).1.nlfsr_offset
        e := 17522
        f := 1634168686 }
      { w := if keysize = 128 then
             ivMergeWords128 iv
               (if keysize = 128 then keysetupWords128 key ctx.nlfsr_word
                else keysetupWords256 key ctx.nlfsr_word)
           else
             ivMergeWords256 iv
               (if keysize = 128 then keysetupWords128 key ctx.nlfsr_word
                else keysetupWords256 key ctx.nlfsr_word)
        off := 0
        e := 17522
        f := 1634168686 }
      rfl rfl rfl hoff).2.2.1
  exact ⟨hw, h0, h1, keystream_blocks_out_congr S _ _ m hw h0 h1⟩

/-- Witness for `second_ivsetup_restores_snapshot` with the zero key and IV,
16 blocks generated between the two IV setups and 16 blocks after. -/
theorem second_ivsetup_restores_snapshot_witness :
    ((ECRYPT_ivsetup S0 (ECRYPT_keystream_blocks S0
          (ECRYPT_ivsetup S0 (ECRYPT_keysetup ctx0 zbuf 128 128) zbuf) 16).1 zbuf).nlfsr_word
        = (ECRYPT_ivsetup S0 (ECRYPT_keysetup ctx0 zbuf 128 128) zbuf).nlfsr_word) ∧
      ((ECRYPT_ivsetup S0 (ECRYPT_keystream_blocks S0
          (ECRYPT_ivsetup S0 (ECRYPT_keysetup ctx0 zbuf 128 128) zbuf) 16).1 zbuf).state_counter0
        = (ECRYPT_ivsetup S0 (ECRYPT_keysetup ctx0 zbuf 128 128) zbuf).state_counter0) ∧
      ((ECRYPT_ivsetup S0 (ECRYPT_keystream_blocks S0
          (ECRYPT_ivsetup S0 (ECRYPT_keysetup ctx0 zbuf 128 128) zbuf) 16).1 zbuf).state_counter1
        = (ECRYPT_ivsetup S0 (ECRYPT_keysetup ctx0 zbuf 128 128) zbuf).state_counter1) ∧
      ((ECRYPT_keystream_blocks S0 (ECRYPT_ivsetup S0 (ECRYPT_keystream_blocks S0
          (ECRYPT_ivsetup S0 (ECRYPT_keysetup ctx0 zbuf 128 128) zbuf) 16).1 zbuf) 16).2
        = (ECRYPT_keystream_blocks S0
            (ECRYPT_ivsetup S0 (ECRYPT_keysetup ctx0 zbuf 128 128) zbuf) 16).2) :=
  second_ivsetup_restores_snapshot S0 ctx0 zbuf zbuf 128 128 16 16
    (by decide) (by decide)

/-! ## Claim C4 — encrypt-then-decrypt is the identity

`PROCESS_RND` updates the NLFSR and the counter exactly like `KEYSTREAM_RND`
(the state evolution is input-independent) and xors the two keystream words of
the round into the two input words; xoring twice with the same keystream word
is the identity, and the `action` parameter is never read. -/

theorem processRounds_inverse (S : Sbox) (locs : List RndLocs) (w : Fin 32 → Nat)
    (c1 c2 : Nat) (xs t t' : List Nat) (hlen : xs.length = 2 * locs.length) :
    (processRounds S locs w c1 c2 (xs ++ t)).2.2.1 = t ∧
      (processRounds S locs w c1 c2
          ((processRounds S locs w c1 c2 (xs ++ t)).2.2.2 ++ t')).1
        = (processRounds S locs w c1 c2 (xs ++ t)).1 ∧
      (processRounds S locs w c1 c2
          ((processRounds S locs w c1 c2 (xs ++ t)).2.2.2 ++ t')).2.1
        = (processRounds S locs w c1 c2 (xs ++ t)).2.1 ∧
      (processRounds S locs w c1 c2
          ((processRounds S locs w c1 c2 (xs ++ t)).2.2.2 ++ t')).2.2.1 = t' ∧
      (processRounds S locs w c1 c2
          ((processRounds S locs w c1 c2 (xs ++ t)).2.2.2 ++ t')).2.2.2 = xs := by
  induction locs generalizing w c2 xs with
  | nil =>
    have hx : xs = [] := List.eq_nil_of_length_eq_zero (by simpa using hlen)
    subst hx
    exact ⟨rfl, rfl, rfl, rfl, rfl⟩
  | cons L rest ih =>
    rcases xs with _ | ⟨x, xs0⟩
    · simp at hlen
    rcases xs0 with _ | ⟨y, xs'⟩
    · simp [List.length_cons] at hlen
      omega
    have hlen' : xs'.length = 2 * rest.length := by
      simp [List.length_cons] at hlen
      omega
    have hi := ih (BASIC_RND S w c1 c2 L).w (BASIC_RND S w c1 c2 L).c2 xs' hlen'
    rw [show ((x :: y :: xs') ++ t) = x :: y :: (xs' ++ t) from rfl,
      processRounds_cons]
    simp only [List.headD_cons, List.tail_cons]
    rw [show ((x ^^^ (BASIC_RND S w c1 c2 L).z1) ::
        (y ^^^ (BASIC_RND S w c1 c2 L).z2) ::
        (processRounds S rest (BASIC_RND S w c1 c2 L).w c1 (BASIC_RND S w c1 c2 L).c2
          (xs' ++ t)).2.2.2) ++ t'
      = (x ^^^ (BASIC_RND S w c1 c2 L).z1) ::
        (y ^^^ (BASIC_RND S w c1 c2 L).z2) ::
        ((processRounds S rest (BASIC_RND S w c1 c2 L).w c1 (BASIC_RND S w c1 c2 L).c2
          (xs' ++ t)).2.2.2 ++ t') from rfl,
      processRounds_cons]
    simp only [List.headD_cons, List.tail_cons]
    refine ⟨hi.1, hi.2.1, hi.2.2.1, hi.2.2.2.1, ?_⟩
    rw [hi.2.2.2.2, Nat.xor_cancel_right, Nat.xor_cancel_right]

theorem procLoopFuel_inverse (S : Sbox) (fuel : Nat) (w : Fin 32 → Nat)
    (c1 c2 blocks : Nat) (xs t t' : List Nat) (hb : blocks = 16 * fuel)
    (hblt : blocks < two32) (hlen : xs.length = 32 * fuel) :
    (procLoopFuel S fuel w c1 c2 blocks (xs ++ t)).2.2.2.1 = t ∧
      (procLoopFuel S fuel w c1 c2 blocks
          ((procLoopFuel S fuel w c1 c2 blocks (xs ++ t)).2.2.2.2 ++ t')).1
        = (procLoopFuel S fuel w c1 c2 blocks (xs ++ t)).1 ∧
      (procLoopFuel S fuel w c1 c2 blocks
          ((procLoopFuel S fuel w c1 c2 blocks (xs ++ t)).2.2.2.2 ++ t')).2.1
        = (procLoopFuel S fuel w c1 c2 blocks (xs ++ t)).2.1 ∧
      (procLoopFuel S fuel w c1 c2 blocks
          ((procLoopFuel S fuel w c1 c2 blocks (xs ++ t)).2.2.2.2 ++ t')).2.2.2.1 = t' ∧
      (procLoopFuel S fuel w c1 c2 blocks
          ((procLoopFuel S fuel w c1 c2 blocks (xs ++ t)).2.2.2.2 ++ t')).2.2.2.2 = xs := by
  induction fuel generalizing w c2 blocks xs with
  | zero =>
    have hx : xs = [] := List.eq_nil_of_length_eq_zero (by simpa using hlen)
    subst hx
    exact ⟨rfl, rfl, rfl, rfl, rfl⟩
  | succ fuel ih =>
    have hpos : 0 < blocks := by omega
    have hstep : ksLoopStep blocks = 16 * fuel := by
      unfold ksLoopStep m32 two32
      unfold two32 at hblt
      omega
    have hsteplt : ksLoopStep blocks < two32 := by
      unfold ksLoopStep m32
      exact Nat.mod_lt _ (by norm_num [two32])
    have hlen1 : (xs.take 32).length = 2 * roundTable.length := by
      rw [roundTable_length, List.length_take]
      omega
    have hlen2 : (xs.drop 32).length = 32 * fuel := by
      rw [List.length_drop]
      omega
    have hsplit : xs ++ t = xs.take 32 ++ (xs.drop 32 ++ t) := by
      rw [← List.append_assoc, List.take_append_drop]
    rw [hsplit, procLoopFuel_succ_pos S fuel w c1 c2 blocks _ hpos]
    have hR := processRounds_inverse S roundTable w c1 c2 (xs.take 32)
      (xs.drop 32 ++ t)
      ((procLoopFuel S fuel
          (processRounds S roundTable w c1 c2 (xs.take 32 ++ (xs.drop 32 ++ t))).1 c1
          (processRounds S roundTable w c1 c2 (xs.take 32 ++ (xs.drop 32 ++ t))).2.1
          (ksLoopStep blocks) (xs.drop 32 ++ t)).2.2.2.2 ++ t') hlen1
    rw [hR.1]
    have hIH := ih (processRounds S roundTable w c1 c2 (xs.take 32 ++ (xs.drop 32 ++ t))).1
      (processRounds S roundTable w c1 c2 (xs.take 32 ++ (xs.drop 32 ++ t))).2.1
      (ksLoopStep blocks) (xs.drop 32) hstep hsteplt hlen2
    refine ⟨hIH.1, ?_, ?_, ?_, ?_⟩ <;>
    · rw [List.append_assoc, procLoopFuel_succ_pos S fuel w c1 c2 blocks _ hpos,
        hR.2.1, hR.2.2.1, hR.2.2.2.1]
      simp only [hIH.2.1, hIH.2.2.1, hIH.2.2.2.1, hIH.2.2.2.2, hR.2.2.2.2,
        List.take_append_drop]

theorem process_blocks_out (S : Sbox) (a : Nat) (c : ECRYPT_ctx) (ins : List Nat)
    (blocks : Nat) :
    (ECRYPT_process_blocks S a c ins blocks).2
      = (procLoopFuel S (blocks / 16) c.nlfsr_word c.state_counter0
          c.state_counter1 blocks ins).2.2.2.2 := rfl

set_option maxHeartbeats 1000000 in
/-- Claim C4: for every key, IV and message whose block count is a valid
multiple of 16 (and below `2^32`, its C type), processing the processed message
again from the same post-IV state returns the original message — the transform
is a symmetric xor with an input-independent keystream — and the `direction`
argument has no effect on the computation at all. -/
theorem process_blocks_self_inverse (S : Sbox) (action1 action2 : Nat)
    (ctx : ECRYPT_ctx) (key iv : Nat → Nat) (keysize ivsize blocks : Nat)
    (msg : List Nat) (h16 : 16 ∣ blocks) (hb : blocks < two32)
    (hlen : msg.length = 2 * blocks) :
    (ECRYPT_process_blocks S action2
        (ECRYPT_ivsetup S (ECRYPT_keysetup ctx key keysize ivsize) iv)
        (ECRYPT_process_blocks S action1
          (ECRYPT_ivsetup S (ECRYPT_keysetup ctx key keysize ivsize) iv)
          msg blocks).2
        blocks).2 = msg ∧
      ECRYPT_process_blocks S action1
        (ECRYPT_ivsetup S (ECRYPT_keysetup ctx key keysize ivsize) iv) msg blocks
      = ECRYPT_process_blocks S action2
        (ECRYPT_ivsetup S (ECRYPT_keysetup ctx key keysize ivsize) iv) msg blocks := by
  constructor
  · rw [process_blocks_out, process_blocks_out]
    have hbf : blocks = 16 * (blocks / 16) := (Nat.mul_div_cancel' h16).symm
    have hlenf : msg.length = 32 * (blocks / 16) := by omega
    have hi := procLoopFuel_inverse S (blocks / 16)
      (ECRYPT_ivsetup S (ECRYPT_keysetup ctx key keysize ivsize) iv).nlfsr_word
      (ECRYPT_ivsetup S (ECRYPT_keysetup ctx key keysize ivsize) iv).state_counter0
      (ECRYPT_ivsetup S (ECRYPT_keysetup ctx key keysize ivsize) iv).state_counter1
      blocks msg [] [] hbf hb hlenf
    rw [List.append_nil, List.append_nil] at hi
    exact hi.2.2.2.2
  · rfl

/-- Witness for `process_blocks_self_inverse`: a 32-word message, 16 blocks,
zero key and IV, opposite direction flags. -/
theorem process_blocks_self_inverse_witness :
    (ECRYPT_process_blocks S0 1
        (ECRYPT_ivsetup S0 (ECRYPT_keysetup ctx0 zbuf 128 128) zbuf)
        (ECRYPT_process_blocks S0 0
          (ECRYPT_ivsetup S0 (ECRYPT_keysetup ctx0 zbuf 128 128) zbuf)
          (List.range 32) 16).2
        16).2 = List.range 32 ∧
      ECRYPT_process_blocks S0 0
        (ECRYPT_ivsetup S0 (ECRYPT_keysetup ctx0 zbuf 128 128) zbuf)
        (List.range 32) 16
      = ECRYPT_process_blocks S0 1
        (ECRYPT_ivsetup S0 (ECRYPT_keysetup ctx0 zbuf 128 128) zbuf)
        (List.range 32) 16 :=
  process_blocks_self_inverse S0 0 1 ctx0 zbuf zbuf 128 128 16 (List.range 32)
    (by decide) (by decide) (by decide)
